import Mathlib

/-!
Shallow embedding of the invoice-OCR service core
(`services/ocr-service/app`), covering the recognizer merge
(`core/ocr_engine.py`), the image pipeline and document classifier
(`core/image_processor.py`), the field/line-item extraction
(`core/ocr_engine.py`), webhook signing (`utils/signatures.py`) and the
consolidated worker (`workers/consolidated_invoice_worker.py`).

Python floats are modelled as rationals, machine strings as Lean
`String`, images as an abstract type parameter, and the outcomes of
external library calls (cv2, PaddleOCR, httpx) as explicit oracle
inputs.  Everything is executable.
-/

namespace InvoiceOcr

/-! ## Character classes (Python `re` classes used by the sources) -/

/-- Python `re` whitespace class `\s` for `str` patterns (ASCII whitespace,
the C1 separators, and the Unicode space code points). -/
def isPySpace (c : Char) : Bool :=
  (0x09 ≤ c.toNat && c.toNat ≤ 0x0D) || (0x1C ≤ c.toNat && c.toNat ≤ 0x1F) ||
  c.toNat = 0x20 || c.toNat = 0x85 || c.toNat = 0xA0 || c.toNat = 0x1680 ||
  (0x2000 ≤ c.toNat && c.toNat ≤ 0x200A) || c.toNat = 0x2028 ||
  c.toNat = 0x2029 || c.toNat = 0x202F || c.toNat = 0x205F || c.toNat = 0x3000

/-- The Thai character class used by `language_detector.py`: the regex
range `[ก-๙]`, i.e. code points U+0E01 through U+0E59 (this includes the
Thai digits U+0E50..U+0E59). -/
def isThaiChar (c : Char) : Bool :=
  0x0E01 ≤ c.toNat && c.toNat ≤ 0x0E59

/-- The Latin letter class `[a-zA-Z]`. -/
def isLatinChar (c : Char) : Bool :=
  (0x41 ≤ c.toNat && c.toNat ≤ 0x5A) || (0x61 ≤ c.toNat && c.toNat ≤ 0x7A)

/-- The digit class `[0-9๐-๙]` (ASCII digits plus Thai digits). -/
def isDigitOrThaiDigit (c : Char) : Bool :=
  c.isDigit || (0x0E50 ≤ c.toNat && c.toNat ≤ 0x0E59)

/-! ## `utils/language_detector.py` -/

/-- Per-script character shares of a text, from
`language_detector.get_script_confidence`: counts of Thai / Latin /
digit characters divided by the number of non-whitespace characters
(all zero when there is no non-whitespace character). -/
structure ScriptShares where
  thaiShare : ℚ
  englishShare : ℚ
  numericShare : ℚ
  otherShare : ℚ
deriving DecidableEq

/-- Embeds `language_detector.get_script_confidence`. -/
def get_script_confidence (text : String) : ScriptShares :=
  let cs := text.toList
  let total : ℕ := (cs.filter (fun c => !isPySpace c)).length
  if total = 0 then ⟨0, 0, 0, 0⟩
  else
    let thaiCount : ℕ := (cs.filter isThaiChar).length
    let englishCount : ℕ := (cs.filter isLatinChar).length
    let digitCount : ℕ := (cs.filter isDigitOrThaiDigit).length
    let otherCount : ℕ := thaiCount + englishCount + digitCount - total
    { thaiShare := (thaiCount : ℚ) / total
      englishShare := (englishCount : ℚ) / total
      numericShare := (digitCount : ℚ) / total
      otherShare := (max 0 otherCount : ℚ) / total }

/-- Embeds `language_detector.is_thai_heavy_text` with its default threshold
0.2: true when the Thai character share is at least the threshold. -/
def is_thai_heavy_text (text : String) (threshold : ℚ := 1/5) : Bool :=
  decide (threshold ≤ (get_script_confidence text).thaiShare)

/-! ## Text regions (`ocr_engine.extract_text` output tuples) -/

/-- A recognizer text region as the merge code reads it: bounding
polygon, text, confidence, which pass produced it, and the
`dual_pass_improved` flag that `_merge_dual_pass_results` writes (absent
keys are modelled as the default `false`). -/
structure TextRegion where
  bounding_box : List (Int × Int)
  text : String
  confidence : ℚ
  ocr_pass : String := "primary"
  dual_pass_improved : Bool := false
deriving DecidableEq

/-- Minimum of a list of integers, first element seeding the fold
(Python `min` over a nonempty sequence). -/
def listMin : List Int → Int
  | [] => 0
  | x :: xs => xs.foldl min x

/-- Maximum of a list of integers, first element seeding the fold
(Python `max` over a nonempty sequence). -/
def listMax : List Int → Int
  | [] => 0
  | x :: xs => xs.foldl max x

/-- Embeds `bbox_to_rect` inside `ocr_engine._calculate_bbox_iou`: a polygon
collapses to `(x_min, y_min, x_max, y_max)`. -/
def bbox_to_rect (bbox : List (Int × Int)) : Int × Int × Int × Int :=
  let xs := bbox.map (fun p => p.1)
  let ys := bbox.map (fun p => p.2)
  (listMin xs, listMin ys, listMax xs, listMax ys)

/-- Embeds `ocr_engine._calculate_bbox_iou`: intersection-over-union of the
axis-aligned bounding rectangles of two polygons. -/
def calculate_bbox_iou (bbox1 bbox2 : List (Int × Int)) : ℚ :=
  let r1 := bbox_to_rect bbox1
  let r2 := bbox_to_rect bbox2
  let xInterMin := max r1.1 r2.1
  let yInterMin := max r1.2.1 r2.2.1
  let xInterMax := min r1.2.2.1 r2.2.2.1
  let yInterMax := min r1.2.2.2 r2.2.2.2
  if xInterMax < xInterMin ∨ yInterMax < yInterMin then 0
  else
    let interArea := (xInterMax - xInterMin) * (yInterMax - yInterMin)
    let area1 := (r1.2.2.1 - r1.1) * (r1.2.2.2 - r1.2.1)
    let area2 := (r2.2.2.1 - r2.1) * (r2.2.2.2 - r2.2.1)
    let unionArea := area1 + area2 - interArea
    if unionArea = 0 then 0 else (interArea : ℚ) / (unionArea : ℚ)

/-- The bounding rectangle has positive width and height (so the region
overlaps itself with IoU 1). -/
def posAreaBox (bbox : List (Int × Int)) : Bool :=
  let r := bbox_to_rect bbox
  decide (r.1 < r.2.2.1 ∧ r.2.1 < r.2.2.2)

/-! ## `ocr_engine._merge_dual_pass_results` -/

/-- The inner `for idx, secondary in enumerate(secondary_regions)` scan:
skip indices already in `used_secondary`, stop at the first region whose
IoU with the primary reaches the threshold. -/
def findMatchAux (p : TextRegion) : List TextRegion → ℕ → List ℕ → ℚ →
    Option (ℕ × TextRegion)
  | [], _, _, _ => none
  | s :: ss, idx, used, t =>
    if idx ∈ used then findMatchAux p ss (idx + 1) used t
    else if t ≤ calculate_bbox_iou p.bounding_box s.bounding_box then some (idx, s)
    else findMatchAux p ss (idx + 1) used t

/-- The outer loop of `_merge_dual_pass_results` over the primary
regions, threading `used_secondary` and emitting one best match per
primary.  The confidence rule is that of the source: a Thai-heavy primary is
kept when `primary.confidence >= secondary.confidence * 0.8`, otherwise
the secondary is taken; a non-Thai primary is replaced when
`secondary.confidence >= primary.confidence * 0.8`.  `used_secondary`
only records secondaries that were actually chosen. -/
def mergeLoop (secondary : List TextRegion) (t : ℚ) :
    List TextRegion → List ℕ → List ℕ × List TextRegion
  | [], used => (used, [])
  | p :: ps, used =>
    let choice : TextRegion × Option ℕ :=
      match findMatchAux p secondary 0 used t with
      | none => (p, none)
      | some (idx, s) =>
        if is_thai_heavy_text p.text then
          if s.confidence * (4/5) ≤ p.confidence then (p, none) else (s, some idx)
        else
          if p.confidence * (4/5) ≤ s.confidence then (s, some idx) else (p, none)
    let used' : List ℕ :=
      match choice.2 with
      | some i => used ++ [i]
      | none => used
    let best : TextRegion :=
      if choice.1 = p then { choice.1 with dual_pass_improved := false }
      else { choice.1 with dual_pass_improved := true }
    let rest := mergeLoop secondary t ps used'
    (rest.1, best :: rest.2)

/-- The trailing `for idx, secondary in enumerate(secondary_regions)`
loop: append every secondary whose index was never consumed, with
`dual_pass_improved = False`. -/
def unmatchedAux : List TextRegion → ℕ → List ℕ → List TextRegion
  | [], _, _ => []
  | s :: ss, idx, used =>
    if idx ∈ used then unmatchedAux ss (idx + 1) used
    else { s with dual_pass_improved := false } :: unmatchedAux ss (idx + 1) used

/-- Embeds `ocr_engine._merge_dual_pass_results` with its default IoU threshold
0.5. -/
def merge_dual_pass_results (primary secondary : List TextRegion)
    (iou_threshold : ℚ := 1/2) : List TextRegion :=
  let r := mergeLoop secondary iou_threshold primary []
  r.2 ++ unmatchedAux secondary 0 r.1

/-! ## `ocr_engine.calculate_overall_confidence` -/

/-- The per-region weight `max(1.0, len(text) / 10.0)`. -/
def regionWeight (r : TextRegion) : ℚ :=
  max 1 ((r.text.length : ℚ) / 10)

/-- Embeds `ocr_engine.calculate_overall_confidence`: 0 on an empty list,
otherwise the loop accumulating `total_confidence` and `total_weight`
and dividing, guarded by `total_weight > 0`. -/
def calculate_overall_confidence (results : List TextRegion) : ℚ :=
  match results with
  | [] => 0
  | _ =>
    let acc := results.foldl
      (fun (tc_tw : ℚ × ℚ) result =>
        let weight := regionWeight result
        (tc_tw.1 + result.confidence * weight, tc_tw.2 + weight))
      (0, 0)
    if 0 < acc.2 then acc.1 / acc.2 else 0

/-! ## The amount regex of `ocr_engine._extract_line_items`

The pattern is `([0-9,]+\.?\d*)\s*(?:บาท)?`.  `findall` returns the
captured group; `re.sub` deletes each whole match.  The pattern has no
backtracking (every part after the mandatory `[0-9,]+` can match the
empty string), so a greedy left-to-right scan is exact. -/

/-- Characters matched by `[0-9,]`. -/
def isDigitOrComma (c : Char) : Bool :=
  c.isDigit || c = ','

/-- The remainder of the input after the non-captured tail of a match:
skip the fractional digits, then `\s*`, then an optional literal
`บาท`. -/
def amountTail (l : List Char) : List Char :=
  if List.isPrefixOf "บาท".toList ((l.dropWhile Char.isDigit).dropWhile isPySpace)
  then ((l.dropWhile Char.isDigit).dropWhile isPySpace).drop 3
  else (l.dropWhile Char.isDigit).dropWhile isPySpace

/-- Match the amount pattern at a position whose first character `c`
satisfies `[0-9,]`.  Returns the captured group (`[0-9,]+\.?\d*`) and
the remainder of the input after the whole match (which also swallows
`\s*` and an optional literal `บาท`). -/
def munchAmount (c : Char) (cs : List Char) : List Char × List Char :=
  let run1 := List.takeWhile isDigitOrComma (c :: cs)
  let rest1 := List.dropWhile isDigitOrComma (c :: cs)
  let dotRest : List Char × List Char :=
    match rest1 with
    | d :: r => if d = '.' then ([d], r) else ([], rest1)
    | [] => ([], rest1)
  (run1 ++ dotRest.1 ++ dotRest.2.takeWhile Char.isDigit, amountTail dotRest.2)

/-- Embeds `re.findall` of the amount pattern: the list of captured groups,
scanning left to right. -/
def scanAmounts : List Char → List (List Char)
  | [] => []
  | c :: cs =>
    if h : isDigitOrComma c = true then
      let m := munchAmount c cs
      m.1 :: scanAmounts m.2
    else scanAmounts cs
termination_by l => l.length
decreasing_by
  · have hTail : ∀ l : List Char, (amountTail l).length ≤ l.length := by
      intro l
      have h3 : (List.dropWhile Char.isDigit l).length ≤ l.length :=
        (List.dropWhile_sublist Char.isDigit).length_le
      have h4 : ((l.dropWhile Char.isDigit).dropWhile isPySpace).length ≤
          (l.dropWhile Char.isDigit).length :=
        (List.dropWhile_sublist isPySpace).length_le
      unfold amountTail
      split
      · rw [List.length_drop]; omega
      · omega
    have hMunch : (munchAmount c cs).2.length ≤ cs.length := by
      unfold munchAmount
      simp only [List.dropWhile_cons, h, if_true]
      have h1 : (List.dropWhile isDigitOrComma cs).length ≤ cs.length :=
        (List.dropWhile_sublist isDigitOrComma).length_le
      rcases hm : List.dropWhile isDigitOrComma cs with - | ⟨d, r⟩
      · simp only
        exact le_trans (hTail []) (Nat.zero_le _)
      · rw [hm] at h1
        simp only [List.length_cons] at h1
        simp only
        split
        · exact le_trans (hTail r) (by omega)
        · exact le_trans (hTail (d :: r)) (by simp; omega)
    simpa using Nat.lt_succ_of_le hMunch
  · simp

/-- Embeds `re.sub` of the amount pattern with the empty string: the input with
every match deleted. -/
def subAmounts : List Char → List Char
  | [] => []
  | c :: cs =>
    if h : isDigitOrComma c = true then subAmounts (munchAmount c cs).2
    else c :: subAmounts cs
termination_by l => l.length
decreasing_by
  · have hTail : ∀ l : List Char, (amountTail l).length ≤ l.length := by
      intro l
      have h3 : (List.dropWhile Char.isDigit l).length ≤ l.length :=
        (List.dropWhile_sublist Char.isDigit).length_le
      have h4 : ((l.dropWhile Char.isDigit).dropWhile isPySpace).length ≤
          (l.dropWhile Char.isDigit).length :=
        (List.dropWhile_sublist isPySpace).length_le
      unfold amountTail
      split
      · rw [List.length_drop]; omega
      · omega
    have hMunch : (munchAmount c cs).2.length ≤ cs.length := by
      unfold munchAmount
      simp only [List.dropWhile_cons, h, if_true]
      have h1 : (List.dropWhile isDigitOrComma cs).length ≤ cs.length :=
        (List.dropWhile_sublist isDigitOrComma).length_le
      rcases hm : List.dropWhile isDigitOrComma cs with - | ⟨d, r⟩
      · simp only
        exact le_trans (hTail []) (Nat.zero_le _)
      · rw [hm] at h1
        simp only [List.length_cons] at h1
        simp only
        split
        · exact le_trans (hTail r) (by omega)
        · exact le_trans (hTail (d :: r)) (by simp; omega)
    simpa using Nat.lt_succ_of_le hMunch
  · simp

/-- Python `str.strip()`. -/
def pyStrip (cs : List Char) : List Char :=
  ((cs.dropWhile isPySpace).reverse.dropWhile isPySpace).reverse

/-- Value of a digit string. -/
def digitsVal (cs : List Char) : ℕ :=
  cs.foldl (fun a c => 10 * a + (c.toNat - 48)) 0

/-- Python `float(group.replace(",", ""))` for a captured amount group:
after removing commas the group is digits, an optional dot, and digits;
`float` fails (`ValueError`) exactly when no digit remains. -/
def parseAmount (group : List Char) : Option ℚ :=
  let s := group.filter (fun c => !(c = ','))
  let intPart := s.takeWhile Char.isDigit
  let rest := s.dropWhile Char.isDigit
  let frac := rest.drop 1
  if intPart = [] ∧ frac = [] then none
  else some ((digitsVal intPart : ℚ) + (digitsVal frac : ℚ) / 10 ^ frac.length)

/-! ## `ocr_engine._extract_line_items` and the worker result record -/

/-- A `{value, confidence}` field holding a string. -/
structure StrField where
  value : String
  confidence : ℚ
deriving DecidableEq

/-- A `{value, confidence}` field holding a number. -/
structure NumField where
  value : ℚ
  confidence : ℚ
deriving DecidableEq

/-- A raw line item as `_extract_line_items` emits it. -/
structure RawLineItem where
  description : StrField
  amount : NumField
deriving DecidableEq

/-- Embeds `ocr_engine._extract_line_items`: for every region with amount-like
matches and confidence strictly above 0.6, strip the amounts from the
text to get the description, parse each matched amount, keep it when the
parse succeeds, the amount is positive and the description is nonempty;
finally clamp to 10 items. -/
def extract_line_items (text_regions : List TextRegion) : List RawLineItem :=
  (text_regions.foldl
    (fun line_items region =>
      let amount_matches := scanAmounts region.text.toList
      if amount_matches ≠ [] ∧ (3/5 : ℚ) < region.confidence then
        let description := String.mk (pyStrip (subAmounts region.text.toList))
        line_items ++ amount_matches.filterMap (fun amount_str =>
          match parseAmount amount_str with
          | none => none
          | some amount =>
            if 0 < amount ∧ description ≠ "" then
              some ⟨⟨description, region.confidence⟩, ⟨amount, region.confidence⟩⟩
            else none)
      else line_items)
    []).take 10

/-- A line item as the worker formats it into `result_data`. -/
structure LineItemOut where
  description : String
  amount : ℚ
  confidence : ℚ
deriving DecidableEq

/-- The slice of the worker `result_data` record relevant to the
persisted-result invariants: the overall confidence computed over all
extracted regions, the region list truncated to 20 entries for storage,
and the line items truncated to 10 entries with the minimum of the two
field confidences. -/
structure ResultData where
  confidence_score : ℚ
  raw_text_regions : List TextRegion
  line_items : List LineItemOut
deriving DecidableEq

/-- The worker result assembly (`process_invoice_complete_pipeline`,
stages 3 and 4): `confidence_score` from `calculate_overall_confidence`
over the full region list, `raw_text_regions = text_regions[:20]`, and
the first 10 line items reformatted. -/
def buildResultData (text_regions : List TextRegion)
    (line_items_data : List RawLineItem) : ResultData :=
  { confidence_score := calculate_overall_confidence text_regions
    raw_text_regions := text_regions.take 20
    line_items := (line_items_data.take 10).map (fun item =>
      { description := item.description.value
        amount := item.amount.value
        confidence := min item.description.confidence item.amount.confidence }) }

/-! ## JSON values and `json.dumps`

Webhook payloads are JSON objects; objects keep their key insertion
order (Python 3 `dict`).  JSON numbers are modelled as integers (the
payload fields the claims inspect are strings and whole numbers). -/

/-- A JSON value with ordered object keys. -/
inductive Json where
  | str (s : String)
  | num (n : Int)
  | bool (b : Bool)
  | null
  | arr (xs : List Json)
  | obj (kvs : List (String × Json))

/-- Lowercase hexadecimal digit. -/
def hexDigitChar (n : ℕ) : Char :=
  if n < 10 then Char.ofNat (48 + n) else Char.ofNat (87 + n)

/-- A `\uXXXX` escape (lowercase hex, as `json.dumps` emits). -/
def uEscape (n : ℕ) : String :=
  String.mk [Char.ofNat 92, 'u', hexDigitChar (n / 4096 % 16),
    hexDigitChar (n / 256 % 16), hexDigitChar (n / 16 % 16), hexDigitChar (n % 16)]

/-- Embeds `json.dumps` string-character escaping; with `ensureAscii` every
non-ASCII code point becomes `\uXXXX` (a surrogate pair above the basic
plane). -/
def escapeJsonChar (ensureAscii : Bool) (c : Char) : String :=
  if c = Char.ofNat 34 then String.mk [Char.ofNat 92, Char.ofNat 34]
  else if c = Char.ofNat 92 then String.mk [Char.ofNat 92, Char.ofNat 92]
  else if c = Char.ofNat 10 then String.mk [Char.ofNat 92, 'n']
  else if c = Char.ofNat 13 then String.mk [Char.ofNat 92, 'r']
  else if c = Char.ofNat 9 then String.mk [Char.ofNat 92, 't']
  else if c = Char.ofNat 8 then String.mk [Char.ofNat 92, 'b']
  else if c = Char.ofNat 12 then String.mk [Char.ofNat 92, 'f']
  else if c.toNat < 0x20 then uEscape c.toNat
  else if ensureAscii ∧ 0x7F < c.toNat then
    if c.toNat < 0x10000 then uEscape c.toNat
    else uEscape (0xD800 + (c.toNat - 0x10000) / 0x400) ++
         uEscape (0xDC00 + (c.toNat - 0x10000) % 0x400)
  else String.singleton c

/-- A JSON string literal. -/
def quoteJsonString (ensureAscii : Bool) (s : String) : String :=
  String.mk [Char.ofNat 34] ++ String.join (s.toList.map (escapeJsonChar ensureAscii))
    ++ String.mk [Char.ofNat 34]

/-- Decimal digits of a natural number (fuel-based so it reduces in the
kernel; `fuel > n` suffices). -/
def natDigitsAux : ℕ → ℕ → List Char
  | 0, _ => []
  | fuel + 1, n =>
    if n < 10 then [hexDigitChar n]
    else natDigitsAux fuel (n / 10) ++ [hexDigitChar (n % 10)]

/-- Decimal rendering of an integer (Python `repr` of an `int`). -/
def intToDecimal (i : Int) : String :=
  if i < 0 then "-" ++ String.mk (natDigitsAux (i.natAbs + 1) i.natAbs)
  else String.mk (natDigitsAux (i.natAbs + 1) i.natAbs)

/-- Python string `<`: code-point lexicographic comparison. -/
def charListLt : List Char → List Char → Bool
  | [], [] => false
  | [], _ :: _ => true
  | _ :: _, [] => false
  | c :: cs, d :: ds =>
    if c.toNat < d.toNat then true
    else if d.toNat < c.toNat then false
    else charListLt cs ds

/-- Python string `<` on `String`. -/
def pyStrLt (a b : String) : Bool :=
  charListLt a.toList b.toList

/-- Stable insertion of a key/value pair by Python string order
(code-point lexicographic, the order `sorted` uses on `dict` keys). -/
def insertByKey (kv : String × Json) : List (String × Json) → List (String × Json)
  | [] => [kv]
  | x :: xs => if pyStrLt kv.1 x.1 then kv :: x :: xs else x :: insertByKey kv xs

/-- Insertion sort of object entries by key. -/
def sortByKey (kvs : List (String × Json)) : List (String × Json) :=
  kvs.foldr insertByKey []

mutual

/-- Recursively sort the keys of every object (the effect of
`json.dumps(..., sort_keys=True)` expressed as a pre-pass). -/
def sortJsonKeys : Json → Json
  | .obj kvs => .obj (sortByKey (sortJsonKVs kvs))
  | .arr xs => .arr (sortJsonList xs)
  | j => j
termination_by structural j => j

def sortJsonList : List Json → List Json
  | [] => []
  | x :: xs => sortJsonKeys x :: sortJsonList xs
termination_by structural l => l

def sortJsonKVs : List (String × Json) → List (String × Json)
  | [] => []
  | kv :: kvs => (kv.1, sortJsonKeys kv.2) :: sortJsonKVs kvs
termination_by structural l => l

end

mutual

/-- Embeds `json.dumps` with the given `ensure_ascii` flag and separators,
keys in the order the object carries them. -/
def jsonDumps (ensureAscii : Bool) (itemSep kvSep : String) : Json → String
  | .str s => quoteJsonString ensureAscii s
  | .num n => intToDecimal n
  | .bool b => if b then "true" else "false"
  | .null => "null"
  | .arr xs =>
    "[" ++ String.intercalate itemSep (jsonDumpsList ensureAscii itemSep kvSep xs) ++ "]"
  | .obj kvs =>
    "\x7b" ++ String.intercalate itemSep (jsonDumpsKVs ensureAscii itemSep kvSep kvs)
      ++ "\x7d"
termination_by structural j => j

def jsonDumpsList (ensureAscii : Bool) (itemSep kvSep : String) :
    List Json → List String
  | [] => []
  | x :: xs =>
    jsonDumps ensureAscii itemSep kvSep x :: jsonDumpsList ensureAscii itemSep kvSep xs
termination_by structural l => l

def jsonDumpsKVs (ensureAscii : Bool) (itemSep kvSep : String) :
    List (String × Json) → List String
  | [] => []
  | kv :: kvs =>
    (quoteJsonString ensureAscii kv.1 ++ kvSep ++ jsonDumps ensureAscii itemSep kvSep kv.2)
      :: jsonDumpsKVs ensureAscii itemSep kvSep kvs
termination_by structural l => l

end

/-- The canonical serialization used by `signatures.py`:
`json.dumps(payload, sort_keys=True, separators=(",", ":"))` (default
`ensure_ascii=True`). -/
def canonical_json_dumps (j : Json) : String :=
  jsonDumps true "," ":" (sortJsonKeys j)

/-- Modelled from the httpx `json=` body encoder: `json.dumps` with
compact separators, `ensure_ascii=False` and NO key sorting — object
keys stay in dict insertion order.  (Older httpx versions used the
default separators; no version sorts keys, which is the fact the
theorems rely on.) -/
def httpx_json_body (j : Json) : String :=
  jsonDumps false "," ":" j

mutual

/-- Embeds `json_utils.convert_to_json_serializable` restricted to values that
are already JSON: the recursive dict/list walk (the numpy / datetime /
bytes branches do not apply to `Json` values). -/
def convert_to_json_serializable : Json → Json
  | .obj kvs => .obj (convertKVs kvs)
  | .arr xs => .arr (convertList xs)
  | j => j
termination_by structural j => j

def convertList : List Json → List Json
  | [] => []
  | x :: xs => convert_to_json_serializable x :: convertList xs
termination_by structural l => l

def convertKVs : List (String × Json) → List (String × Json)
  | [] => []
  | kv :: kvs => (kv.1, convert_to_json_serializable kv.2) :: convertKVs kvs
termination_by structural l => l

end

/-- Embeds `json_utils.prepare_webhook_payload`. -/
def prepare_webhook_payload (payload : Json) : Json :=
  convert_to_json_serializable payload

/-! ## SHA-256 and HMAC (the `hashlib` / `hmac` primitives used by
`utils/signatures.py`), over byte lists with 32-bit words as `ℕ % 2^32` -/

/-- Truncation to a 32-bit word. -/
def w32 (n : ℕ) : ℕ := n % 4294967296

/-- Thirty-two-bit right rotation (operands below `2^32`). -/
def rotr32 (n x : ℕ) : ℕ := x / 2 ^ n + x % 2 ^ n * 2 ^ (32 - n)

/-- Thirty-two-bit bitwise complement. -/
def not32 (x : ℕ) : ℕ := 4294967295 - x

def sha256Ch (x y z : ℕ) : ℕ := (x &&& y) ^^^ (not32 x &&& z)

def sha256Maj (x y z : ℕ) : ℕ := (x &&& y) ^^^ (x &&& z) ^^^ (y &&& z)

def bsig0 (x : ℕ) : ℕ := rotr32 2 x ^^^ rotr32 13 x ^^^ rotr32 22 x

def bsig1 (x : ℕ) : ℕ := rotr32 6 x ^^^ rotr32 11 x ^^^ rotr32 25 x

def ssig0 (x : ℕ) : ℕ := rotr32 7 x ^^^ rotr32 18 x ^^^ x / 2 ^ 3

def ssig1 (x : ℕ) : ℕ := rotr32 17 x ^^^ rotr32 19 x ^^^ x / 2 ^ 10

/-- The SHA-256 round constants (first quarter), in decimal. -/
def sha256Kpart0 : List ℕ :=
  [1116352408, 1899447441, 3049323471, 3921009573, 961987163,
   1508970993, 2453635748, 2870763221, 3624381080, 310598401,
   607225278, 1426881987, 1925078388, 2162078206, 2614888103,
   3248222580]

def sha256Kpart1 : List ℕ :=
  [3835390401, 4022224774, 264347078, 604807628, 770255983,
   1249150122, 1555081692, 1996064986, 2554220882, 2821834349,
   2952996808, 3210313671, 3336571891, 3584528711, 113926993,
   338241895]

def sha256Kpart2 : List ℕ :=
  [666307205, 773529912, 1294757372, 1396182291, 1695183700,
   1986661051, 2177026350, 2456956037, 2730485921, 2820302411,
   3259730800, 3345764771, 3516065817, 3600352804, 4094571909,
   275423344]

def sha256Kpart3 : List ℕ :=
  [430227734, 506948616, 659060556, 883997877, 958139571,
   1322822218, 1537002063, 1747873779, 1955562222, 2024104815,
   2227730452, 2361852424, 2428436474, 2756734187, 3204031479,
   3329325298]

/-- The SHA-256 round constants: the four quarters in order. -/
def sha256K : List ℕ :=
  sha256Kpart0 ++ sha256Kpart1 ++ sha256Kpart2 ++ sha256Kpart3

/-- The SHA-256 initial hash value, in decimal. -/
def sha256H0 : List ℕ :=
  [1779033703, 3144134277, 1013904242,
   2773480762, 1359893119, 2600822924,
   528734635, 1541459225]

/-- Message padding: `0x80`, zeros to 56 mod 64, then the bit length as
eight big-endian bytes. -/
def sha256Pad (msg : List ℕ) : List ℕ :=
  let bitLen := 8 * msg.length
  msg ++ [0x80] ++ List.replicate ((119 - msg.length % 64) % 64) 0 ++
    [56, 48, 40, 32, 24, 16, 8, 0].map (fun i => bitLen / 2 ^ i % 256)

/-- Split a byte list into 64-byte blocks. -/
def toBlocks (l : List ℕ) : List (List ℕ) :=
  if l = [] then [] else l.take 64 :: toBlocks (l.drop 64)
termination_by l.length
decreasing_by
  rename_i h
  have : l.length ≠ 0 := fun hl => h (List.eq_nil_of_length_eq_zero hl)
  simp [List.length_drop]
  omega

/-- The 64-entry message schedule of one block. -/
def sha256Schedule (block : List ℕ) : List ℕ :=
  let words16 := (List.range 16).map (fun i =>
    block.getD (4 * i) 0 * 2 ^ 24 + block.getD (4 * i + 1) 0 * 2 ^ 16 +
    block.getD (4 * i + 2) 0 * 2 ^ 8 + block.getD (4 * i + 3) 0)
  (List.range 48).foldl
    (fun w _ =>
      w ++ [w32 (ssig1 (w.getD (w.length - 2) 0) + w.getD (w.length - 7) 0 +
        ssig0 (w.getD (w.length - 15) 0) + w.getD (w.length - 16) 0)])
    words16

/-- One SHA-256 compression step. -/
def sha256Compress (h : List ℕ) (block : List ℕ) : List ℕ :=
  let w := sha256Schedule block
  let final := (List.range 64).foldl
    (fun (st : List ℕ) t =>
      let a := st.getD 0 0
      let b := st.getD 1 0
      let c := st.getD 2 0
      let d := st.getD 3 0
      let e := st.getD 4 0
      let f := st.getD 5 0
      let g := st.getD 6 0
      let hh := st.getD 7 0
      let t1 := w32 (hh + bsig1 e + sha256Ch e f g + sha256K.getD t 0 + w.getD t 0)
      let t2 := w32 (bsig0 a + sha256Maj a b c)
      [w32 (t1 + t2), a, b, c, w32 (d + t1), e, f, g])
    h
  List.zipWith (fun x y => w32 (x + y)) h final

/-- SHA-256 of a byte list, as 32 bytes. -/
def sha256 (msg : List ℕ) : List ℕ :=
  let hFinal := (toBlocks (sha256Pad msg)).foldl sha256Compress sha256H0
  (hFinal.map (fun wd => [wd / 2 ^ 24 % 256, wd / 2 ^ 16 % 256,
    wd / 2 ^ 8 % 256, wd % 256])).flatten

/-- HMAC-SHA256 (`hmac.new(key, msg, hashlib.sha256)`). -/
def hmacSha256 (key msg : List ℕ) : List ℕ :=
  let k0 := if 64 < key.length then sha256 key else key
  let k1 := k0 ++ List.replicate (64 - k0.length) 0
  sha256 ((k1.map (fun b => b ^^^ 0x5C)) ++
    sha256 ((k1.map (fun b => b ^^^ 0x36)) ++ msg))

/-- Lowercase hex digest of a byte list (`.hexdigest()`). -/
def hexDigest (bytes : List ℕ) : String :=
  String.join (bytes.map (fun b => String.mk [hexDigitChar (b / 16), hexDigitChar (b % 16)]))

/-- UTF-8 encoding of one character (`str.encode("utf-8")`). -/
def charUtf8 (c : Char) : List ℕ :=
  let n := c.toNat
  if n < 0x80 then [n]
  else if n < 0x800 then [0xC0 + n / 64, 0x80 + n % 64]
  else if n < 0x10000 then [0xE0 + n / 4096, 0x80 + n / 64 % 64, 0x80 + n % 64]
  else [0xF0 + n / 262144, 0x80 + n / 4096 % 64, 0x80 + n / 64 % 64, 0x80 + n % 64]

/-- UTF-8 bytes of a string. -/
def utf8Bytes (s : String) : List ℕ :=
  (s.toList.map charUtf8).flatten

/-! ## `utils/signatures.py` -/

/-- Embeds `signatures.generate_webhook_signature`, parameterized by the
`WEBHOOK_SECRET` environment value: raises `ValueError` (modelled as
`Except.error`) when the secret is unset or empty, otherwise signs the
canonical JSON serialization of the payload. -/
def generate_webhook_signature (webhook_secret : String) (payload : Json) :
    Except String String :=
  if webhook_secret = "" then Except.error "WEBHOOK_SECRET not configured"
  else Except.ok ("sha256=" ++ hexDigest (hmacSha256 (utf8Bytes webhook_secret)
    (utf8Bytes (canonical_json_dumps payload))))

/-! ## `consolidated_invoice_worker.send_webhook` -/

/-- The outcome of one POST attempt: a 2xx response (`raise_for_status`
passes), a transport timeout (`httpx.TimeoutException`), a non-2xx
response (`httpx.HTTPStatusError` with its status code), or any other
exception. -/
inductive AttemptOutcome where
  | success
  | timeout
  | httpError (status : ℕ)
  | otherError (msg : String)
deriving DecidableEq

/-- Whether the attempt returned inside the `try` (only `success`
does; every listed exception is caught and falls through to the
retry logic). -/
def isSuccess : AttemptOutcome → Bool
  | .success => true
  | _ => false

/-- One HTTP request as `send_webhook` issues it: target URL, headers in
insertion order, the body bytes httpx serializes from the payload, and
the client timeout in seconds. -/
structure WebhookRequest where
  url : String
  headers : List (String × String)
  body : String
  timeoutSecs : ℚ
deriving DecidableEq

/-- The observable result of `send_webhook`: the returned boolean, the
requests issued (one per attempt, in order), and the `asyncio.sleep`
durations performed between attempts. -/
structure SendResult where
  success : Bool
  requests : List WebhookRequest
  sleeps : List ℕ
deriving DecidableEq

/-- The `for attempt in range(max_retries + 1)` loop: `fuel` counts the
remaining iterations, `a` is the current attempt index.  On a caught
exception the loop sleeps `2 ** attempt` seconds iff further retries
remain. -/
def sendAttempts (req : WebhookRequest) (outcomes : ℕ → AttemptOutcome)
    (maxRetries : ℕ) : ℕ → ℕ → SendResult
  | _, 0 => ⟨false, [], []⟩
  | a, fuel + 1 =>
    if isSuccess (outcomes a) then ⟨true, [req], []⟩
    else if a < maxRetries then
      let r := sendAttempts req outcomes maxRetries (a + 1) fuel
      ⟨r.success, req :: r.requests, 2 ^ a :: r.sleeps⟩
    else ⟨false, [req], []⟩

/-- Embeds `consolidated_invoice_worker.send_webhook`: prepare the payload,
generate the signature once (a `ValueError` is caught and leaves the
delivery unsigned), then attempt delivery up to `max_retries + 1` times
with exponential backoff; every attempt posts the same payload with a
30-second client timeout. -/
def send_webhook (webhook_secret webhook_url : String) (payload : Json)
    (outcomes : ℕ → AttemptOutcome) (max_retries : ℕ := 3) : SendResult :=
  let json_safe_payload := prepare_webhook_payload payload
  let signature : Option String :=
    match generate_webhook_signature webhook_secret json_safe_payload with
    | .ok s => some s
    | .error _ => none
  let headers : List (String × String) :=
    [("Content-Type", "application/json"), ("User-Agent", "OCR-Service/1.0")] ++
    (match signature with
     | some s => [("X-Webhook-Signature", s)]
     | none => [])
  let req : WebhookRequest :=
    { url := webhook_url, headers := headers,
      body := httpx_json_body json_safe_payload, timeoutSecs := 30 }
  sendAttempts req outcomes max_retries 0 (max_retries + 1)

/-! ## `core/image_processor.py` — pipeline stages

Every stage helper in the source wraps its cv2/numpy work in
`try/except Exception` and returns its input image on failure, so the
helpers are total; the unknown outcomes of the underlying library calls
are oracle inputs.  Images are an abstract type `Img`. -/

/-- Outcome of `detect_document_edges` plus the crop arithmetic inside
`crop_invoice_document`: an exception, no corners, a wrong corner
count, or a successful crop producing a new image. -/
inductive CropDetect (Img : Type) where
  | errored (msg : String)
  | noCorners
  | wrongCount (n : ℕ)
  | cropped (img : Img)

/-- Outcome of the Hough-line work inside `deskew_image_with_angle`: an
exception, no usable lines/angles, or a median angle with the rotated
image. -/
inductive DeskewOutcome (Img : Type) where
  | errored (msg : String)
  | noLines
  | angleFound (a : ℚ) (rotated : Img)

/-- The oracle for the external cv2/numpy calls each stage makes. -/
structure CvOracle (Img : Type) where
  resizeCv : Img → Except String Img
  denoiseCv : Img → Except String Img
  bilateralCv : Img → Except String Img
  enhanceCv : Img → Except String Img
  cropDetect : Img → CropDetect Img
  perspectiveCv : Img → Except String (Option Img)
  deskewCv : Img → DeskewOutcome Img
  sharpenCv : Img → Except String Img
  thresholdCv : Img → Except String Img

/-- Embeds `image_processor.resize_image`: the cv2 work, with the internal
catch-all returning the input image. -/
def resize_image {Img : Type} (o : CvOracle Img) (image : Img) : Img :=
  match o.resizeCv image with
  | .ok i => i
  | .error _ => image

/-- Embeds `image_processor.denoise_image`: non-local-means, falling back to a
bilateral filter, falling back to the input image. -/
def denoise_image {Img : Type} (o : CvOracle Img) (image : Img) : Img :=
  match o.denoiseCv image with
  | .ok i => i
  | .error _ =>
    match o.bilateralCv image with
    | .ok i => i
    | .error _ => image

/-- Embeds `image_processor.enhance_contrast`: CLAHE with the internal
catch-all returning the input image. -/
def enhance_contrast {Img : Type} (o : CvOracle Img) (image : Img) : Img :=
  match o.enhanceCv image with
  | .ok i => i
  | .error _ => image

/-- Embeds `image_processor.sharpen_image`. -/
def sharpen_image {Img : Type} (o : CvOracle Img) (image : Img) : Img :=
  match o.sharpenCv image with
  | .ok i => i
  | .error _ => image

/-- Embeds `image_processor.apply_threshold` (adaptive). -/
def apply_threshold {Img : Type} (o : CvOracle Img) (image : Img) : Img :=
  match o.thresholdCv image with
  | .ok i => i
  | .error _ => image

/-- The crop metadata dictionary slice the pipeline reads. -/
structure CropMeta where
  cropping_applied : Bool
  reason : Option String
  error : Option String
deriving DecidableEq

/-- Embeds `image_processor.crop_invoice_document`: edge detection, corner
validation and crop, with the internal catch-all returning the input
image and a `cropping_error` reason. -/
def crop_invoice_document {Img : Type} (o : CvOracle Img) (image : Img) :
    Img × CropMeta :=
  match o.cropDetect image with
  | .errored e => (image, ⟨false, some "cropping_error", some e⟩)
  | .noCorners => (image, ⟨false, some "document_edges_returned_none", none⟩)
  | .wrongCount n => (image, ⟨false, some ("wrong_corner_count_" ++ toString n), none⟩)
  | .cropped i => (i, ⟨true, none, none⟩)

/-- Embeds `image_processor.correct_perspective_with_metadata`: returns the
corrected image and the `perspective_corrected` flag; exceptions and
missing corners leave the image unchanged. -/
def correct_perspective_with_metadata {Img : Type} (o : CvOracle Img) (image : Img) :
    Img × Bool :=
  match o.perspectiveCv image with
  | .error _ => (image, false)
  | .ok none => (image, false)
  | .ok (some i) => (i, true)

/-- Embeds `image_processor.deskew_image_with_angle`: no lines or an exception
give angle 0; an angle below 0.5 in absolute value leaves the image
unrotated. -/
def deskew_image_with_angle {Img : Type} (o : CvOracle Img) (image : Img) :
    Img × ℚ :=
  match o.deskewCv image with
  | .errored _ => (image, 0)
  | .noLines => (image, 0)
  | .angleFound a rotated => if |a| < 1/2 then (image, a) else (rotated, a)

/-- The metadata record `preprocess_image` returns.  Because every stage
helper absorbs its own exceptions, the per-stage `except` branches in
`preprocess_image` (which would append to `failed_operations`) and its
outer `except` branch (which would return the error-keyed dict) are
unreachable; `failed_operations` therefore stays empty and `error`
stays `none`. -/
structure PreprocMeta where
  operations_applied : List String
  failed_operations : List (String × String)
  skew_angle : ℚ
  perspective_corrected : Bool
  processing_quality : String
  error : Option String
deriving DecidableEq

/-- Scan for an infix occurrence of `n`. -/
def substrAux (n : List Char) : List Char → Bool
  | [] => n.isEmpty
  | c :: cs => List.isPrefixOf n (c :: cs) || substrAux n cs

/-- Substring test (Python `op in applied`). -/
def containsSubstr (hay needle : String) : Bool :=
  substrAux needle.toList hay.toList

/-- Embeds `image_processor.preprocess_image`: the enabled stages in order,
collecting `operations_applied`, then the `processing_quality` grade
from how many of the critical operations appear (by substring) in the
applied list. -/
def preprocess_image {Img : Type} (o : CvOracle Img) (image : Img)
    (operations : List String) : Img × PreprocMeta :=
  let step1 : Img × List String :=
    if operations.contains "resize" then (resize_image o image, ["resize"])
    else (image, [])
  let step2 : Img × List String :=
    if operations.contains "crop_invoice" then
      let r := crop_invoice_document o step1.1
      (r.1, step1.2 ++ if r.2.cropping_applied then ["crop_invoice"] else [])
    else step1
  let step3 : Img × List String :=
    if operations.contains "denoise" then
      (denoise_image o step2.1, step2.2 ++ ["denoise"])
    else step2
  let step4 : Img × List String :=
    if operations.contains "enhance_contrast" then
      (enhance_contrast o step3.1, step3.2 ++ ["enhance_contrast"])
    else step3
  let step5 : Img × List String × Bool :=
    if operations.contains "perspective_correct" then
      let r := correct_perspective_with_metadata o step4.1
      (r.1, step4.2 ++ (if r.2 then ["perspective_correct"] else []), r.2)
    else (step4.1, step4.2, false)
  let step6 : Img × List String × ℚ :=
    if operations.contains "deskew" then
      let r := deskew_image_with_angle o step5.1
      (r.1, step5.2.1 ++ (if 1/2 < |r.2| then ["deskew"] else []), r.2)
    else (step5.1, step5.2.1, 0)
  let step7 : Img × List String :=
    if operations.contains "sharpen" then
      (sharpen_image o step6.1, step6.2.1 ++ ["sharpen"])
    else (step6.1, step6.2.1)
  let step8 : Img × List String :=
    if operations.contains "threshold" then
      (apply_threshold o step7.1, step7.2 ++ ["threshold"])
    else step7
  let successful_critical :=
    (["resize", "enhance_contrast", "threshold"].filter
      (fun op => step8.2.any (fun applied => containsSubstr applied op)))
  let quality :=
    if successful_critical.length < 1 then "poor"
    else if successful_critical.length < 2 then "acceptable"
    else "good"
  (step8.1,
   { operations_applied := step8.2
     failed_operations := []
     skew_angle := step6.2.2
     perspective_corrected := step5.2.2
     processing_quality := quality
     error := none })

/-! ## `image_processor.is_document_image` (the classification gate) -/

/-- The classifier oracle: the grayscale conversion at the top of the
`try` block (the only raise point, since every `_analyze_*` helper has
its own catch-all returning 0.0), and the internal outcomes of the five
analyzers (an error means the internal `except` of the analyzer returned 0.0). -/
structure ClassifyOracle where
  grayCv : Except String Unit
  textScore : Except String ℚ
  edgeScore : Except String ℚ
  rectScore : Except String ℚ
  brightScore : Except String ℚ
  aspectScore : Except String ℚ

/-- The score an analyzer returns: its value, or 0.0 from its internal
exception handler. -/
def analyzeScore : Except String ℚ → ℚ
  | .ok q => q
  | .error _ => 0

/-- The classification metadata slice the worker stores. -/
structure DocMeta where
  error : Option String
  final_confidence : Option ℚ
  is_document : Option Bool
  classification_skipped : Bool
deriving DecidableEq

/-- Embeds `image_processor.is_document_image`: the five weighted scores and
the 0.25 acceptance threshold; an exception inside the gate (the
grayscale conversion) is caught and defaults to
fail-open with the error recorded in the metadata. -/
def is_document_image (o : ClassifyOracle) : Bool × ℚ × DocMeta :=
  match o.grayCv with
  | .error e => (true, 1/2, ⟨some e, none, none, false⟩)
  | .ok _ =>
    let document_confidence :=
      analyzeScore o.textScore * (35/100) + analyzeScore o.edgeScore * (25/100) +
      analyzeScore o.rectScore * (20/100) + analyzeScore o.brightScore * (10/100) +
      analyzeScore o.aspectScore * (10/100)
    let is_document := decide ((1/4 : ℚ) ≤ document_confidence)
    (is_document, document_confidence,
      ⟨none, some document_confidence, some is_document, false⟩)

/-! ## The preprocessing stage of the worker
(`process_invoice_complete_pipeline`, stage 1) -/

/-- The download / classification / preprocessing prologue of
`process_invoice_complete_pipeline`: a download failure raises
`ValueError("Failed to download image: ...")`; an exception from the
classification call is caught and the image is assumed to be a
document; a `False` classification raises
`ValueError("Image does not contain a document ...")`; then the
preprocessing pipeline runs (its own worker-side `except` fallback is
unreachable because `preprocess_image` is total). -/
def workerPreprocessingStage {Img : Type} (download : Except String Img)
    (classifyResult : Except String (Bool × ℚ × DocMeta))
    (o : CvOracle Img) (operations : List String) :
    Except String (Img × PreprocMeta × (Bool × ℚ × DocMeta)) :=
  match download with
  | .error e => .error ("Failed to download image: " ++ e)
  | .ok original_image =>
    let cls : Bool × ℚ × DocMeta :=
      match classifyResult with
      | .ok r => r
      | .error e => (true, 1/2, ⟨some e, none, none, true⟩)
    if cls.1 = false then .error "Image does not contain a document"
    else
      let r := preprocess_image o original_image operations
      .ok (r.1, r.2, cls)

/-! ## The failure handler of the worker
(`process_invoice_complete_pipeline`, the outer `except` block) -/

/-- The job metadata fields the worker mutates. -/
structure JobMeta where
  progress : ℕ
  stage : String
  error : Option String
  processing_time : Option Int
deriving DecidableEq

/-- Read a field of a JSON object (first occurrence, insertion order). -/
def getField (j : Json) (key : String) : Option Json :=
  match j with
  | .obj kvs => (kvs.find? (fun kv => kv.1 = key)).map (fun kv => kv.2)
  | _ => none

/-- The `error_payload` dict the failure handler builds, keys in
insertion order; `stageField` is what the `stage` read-back from `job.meta`
returns at that point. -/
def errorPayloadJson (job_id user_id message_id timestamp : String)
    (processing_time : Int) (err stageField : String) : Json :=
  Json.obj [("event", .str "job.failed"), ("job_id", .str job_id),
    ("user_id", .str user_id), ("message_id", .str message_id),
    ("timestamp", .str timestamp), ("processing_time", .num processing_time),
    ("error", .str err), ("stage", .str stageField)]

/-- The outer `except` block of the worker (lines 357-401): it first commits
`stage = failed` and `error = str(e)` into the job metadata, then
builds the `job.failed` payload reading the `stage` key back from the
just-mutated metadata (with default `unknown`, unreachable), sends the error webhook
inside a `try/except` whose failures are logged and swallowed
(`webhookSendResult` does not influence anything), and finally re-raises
the original exception message. -/
def handlePipelineFailure (job_id user_id message_id timestamp : String)
    (processing_time : Int) (meta : JobMeta) (e : String)
    (webhookSendResult : Except String Bool) : JobMeta × Json × String :=
  let meta1 : JobMeta :=
    { meta with stage := "failed", error := some e,
                processing_time := some processing_time }
  let error_payload :=
    errorPayloadJson job_id user_id message_id timestamp processing_time e meta1.stage
  let reraised := e
  match webhookSendResult with
  | .ok _ => (meta1, error_payload, reraised)
  | .error _ => (meta1, error_payload, reraised)

/-! ## Supporting lemmas -/

theorem setFlagFalse (r : TextRegion) (h : r.dual_pass_improved = false) :
    { r with dual_pass_improved := false } = r := by
  cases r
  simp_all

theorem sendAttempts_requests_all (req : WebhookRequest)
    (outcomes : ℕ → AttemptOutcome) (maxRetries : ℕ) :
    ∀ fuel a, ∀ x ∈ (sendAttempts req outcomes maxRetries a fuel).requests, x = req := by
  intro fuel
  induction fuel with
  | zero => intro a x hx; simp [sendAttempts] at hx
  | succ n ih =>
    intro a x hx
    by_cases h1 : isSuccess (outcomes a)
    · simp [sendAttempts, h1] at hx; exact hx
    · by_cases h2 : a < maxRetries
      · simp [sendAttempts, h1, h2] at hx
        rcases hx with hx | hx
        · exact hx
        · exact ih (a + 1) x hx
      · simp [sendAttempts, h1, h2] at hx; exact hx

theorem sendAttempts_len_le (req : WebhookRequest)
    (outcomes : ℕ → AttemptOutcome) (maxRetries : ℕ) :
    ∀ fuel a, (sendAttempts req outcomes maxRetries a fuel).requests.length ≤ fuel := by
  intro fuel
  induction fuel with
  | zero => intro a; simp [sendAttempts]
  | succ n ih =>
    intro a
    by_cases h1 : isSuccess (outcomes a)
    · simp [sendAttempts, h1]
    · by_cases h2 : a < maxRetries
      · simp only [sendAttempts, h1, if_false, h2, if_true, Bool.false_eq_true,
          List.length_cons]
        exact Nat.succ_le_succ (ih (a + 1))
      · simp [sendAttempts, h1, h2]

theorem sendAttempts_len_pos (req : WebhookRequest)
    (outcomes : ℕ → AttemptOutcome) (maxRetries : ℕ) :
    ∀ fuel a, 1 ≤ fuel → 1 ≤ (sendAttempts req outcomes maxRetries a fuel).requests.length := by
  intro fuel
  cases fuel with
  | zero => intro a h; omega
  | succ n =>
    intro a _
    by_cases h1 : isSuccess (outcomes a)
    · simp [sendAttempts, h1]
    · by_cases h2 : a < maxRetries
      · simp [sendAttempts, h1, h2]
      · simp [sendAttempts, h1, h2]

theorem sendAttempts_sleeps_eq (req : WebhookRequest)
    (outcomes : ℕ → AttemptOutcome) (maxRetries : ℕ) :
    ∀ fuel a, maxRetries + 1 ≤ a + fuel →
      (sendAttempts req outcomes maxRetries a fuel).sleeps =
        (List.range ((sendAttempts req outcomes maxRetries a fuel).requests.length - 1)).map
          (fun k => 2 ^ (a + k)) := by
  intro fuel
  induction fuel with
  | zero => intro a _; simp [sendAttempts]
  | succ n ih =>
    intro a hfuel
    by_cases h1 : isSuccess (outcomes a)
    · simp [sendAttempts, h1]
    · by_cases h2 : a < maxRetries
      · have hn : 1 ≤ n := by omega
        have hpos := sendAttempts_len_pos req outcomes maxRetries n (a + 1) hn
        have hr := ih (a + 1) (by omega)
        simp only [sendAttempts, h1, Bool.false_eq_true, if_false, h2, if_true,
          List.length_cons]
        obtain ⟨m, hm⟩ : ∃ m,
            (sendAttempts req outcomes maxRetries (a + 1) n).requests.length = m + 1 :=
          ⟨_, (Nat.succ_pred_eq_of_pos hpos).symm⟩
        rw [hm] at hr
        rw [hr, hm]
        simp only [Nat.add_sub_cancel, Nat.succ_sub_one]
        rw [List.range_succ_eq_map, List.map_cons, List.map_map]
        refine congrArg₂ List.cons (by simp) ?_
        refine List.map_congr_left ?_
        intro k _
        simp only [Function.comp]
        refine congrArg (2 ^ ·) ?_
        omega
      · simp [sendAttempts, h1, h2]

/-! ## C9: the classification gate fails open -/

/-- C9.  If the classification computation raises (the grayscale
conversion at the head of the `try` block errors), `is_document_image`
fails open with the error recorded in the metadata; and when the worker call to the
classifier raises, the worker assumes the image is a document and the
preprocessing stage proceeds instead of rejecting the job — a
classification error never yields a non-document rejection. -/
theorem C9_classification_fails_open {Img : Type} (o : ClassifyOracle) (e : String)
    (ho : o.grayCv = Except.error e) (img : Img) (cvO : CvOracle Img)
    (ops : List String) (e2 : String) :
    is_document_image o = (true, 1/2, ⟨some e, none, none, false⟩) ∧
    workerPreprocessingStage (Except.ok img) (Except.error e2) cvO ops =
      Except.ok ((preprocess_image cvO img ops).1, (preprocess_image cvO img ops).2,
        (true, 1/2, ⟨some e2, none, none, true⟩)) := by
  constructor
  · unfold is_document_image
    rw [ho]
  · unfold workerPreprocessingStage
    simp

/-- Oracle on which the classification computation raises. -/
def c9Oracle : ClassifyOracle :=
  ⟨Except.error "cv2 cvtColor failure", Except.ok 0, Except.ok 0, Except.ok 0,
   Except.ok 0, Except.ok 0⟩

/-- A cv oracle on which every library call succeeds and returns its
input unchanged. -/
def okCvOracle : CvOracle ℕ :=
  { resizeCv := fun i => Except.ok i
    denoiseCv := fun i => Except.ok i
    bilateralCv := fun i => Except.ok i
    enhanceCv := fun i => Except.ok i
    cropDetect := fun _ => CropDetect.noCorners
    perspectiveCv := fun i => Except.ok (some i)
    deskewCv := fun _ => DeskewOutcome.noLines
    sharpenCv := fun i => Except.ok i
    thresholdCv := fun i => Except.ok i }

/-- Witness for C9 at a concrete oracle, image and operation list. -/
theorem C9_classification_fails_open_witness :
    is_document_image c9Oracle = (true, 1/2, ⟨some "cv2 cvtColor failure", none, none, false⟩) ∧
    workerPreprocessingStage (Except.ok 5) (Except.error "classification raised")
        okCvOracle ["resize"] =
      Except.ok ((preprocess_image okCvOracle 5 ["resize"]).1,
        (preprocess_image okCvOracle 5 ["resize"]).2,
        (true, 1/2, ⟨some "classification raised", none, none, true⟩)) :=
  C9_classification_fails_open c9Oracle "cv2 cvtColor failure" rfl 5 okCvOracle
    ["resize"] "classification raised"

/-! ## C10: missing webhook secret gives an unsigned delivery -/

/-- C10.  With `WEBHOOK_SECRET` unset or empty,
`generate_webhook_signature` raises `ValueError`; `send_webhook` catches
it and still issues the delivery attempts, whose headers carry no
`X-Webhook-Signature` entry. -/
theorem C10_unsigned_delivery (webhook_secret webhook_url : String) (payload : Json)
    (outcomes : ℕ → AttemptOutcome) (h : webhook_secret = "") :
    generate_webhook_signature webhook_secret payload =
      Except.error "WEBHOOK_SECRET not configured" ∧
    1 ≤ (send_webhook webhook_secret webhook_url payload outcomes 3).requests.length ∧
    ∀ req ∈ (send_webhook webhook_secret webhook_url payload outcomes 3).requests,
      req.headers = [("Content-Type", "application/json"),
                     ("User-Agent", "OCR-Service/1.0")] := by
  subst h
  refine ⟨rfl, ?_, ?_⟩
  · exact sendAttempts_len_pos _ outcomes 3 4 0 (by omega)
  · intro req hreq
    have hr := sendAttempts_requests_all _ outcomes 3 4 0 req hreq
    rw [hr]
    rfl

/-- Witness for C10 at a concrete URL, payload and outcome trace. -/
theorem C10_unsigned_delivery_witness :
    generate_webhook_signature "" (Json.obj [("event", Json.str "job.completed")]) =
      Except.error "WEBHOOK_SECRET not configured" ∧
    1 ≤ (send_webhook "" "http://cb/w" (Json.obj [("event", Json.str "job.completed")])
          (fun _ => AttemptOutcome.success) 3).requests.length ∧
    ∀ req ∈ (send_webhook "" "http://cb/w" (Json.obj [("event", Json.str "job.completed")])
          (fun _ => AttemptOutcome.success) 3).requests,
      req.headers = [("Content-Type", "application/json"),
                     ("User-Agent", "OCR-Service/1.0")] :=
  C10_unsigned_delivery "" "http://cb/w" (Json.obj [("event", Json.str "job.completed")])
    (fun _ => AttemptOutcome.success) rfl

/-! ## C1: the stage the failure handler commits and reports -/

/-- C1 (the code bug, evaluated).  An exception with message
`"Failed to download image: timeout"` arises while
the job metadata holds `stage = preprocessing`.  The handler commits
`stage = "failed"` and the `job.failed` payload carries
`stage = "failed"` — not the stage that was current when the exception
arose — while `error` does carry the exception message; the webhook-send
failure (`connection refused`) is swallowed and the original exception
is re-raised. -/
theorem C1_failure_stage_overwritten :
    (handlePipelineFailure "job-1" "U1" "M1" "2026-01-01T00:00:00+00:00" 3
      ⟨10, "preprocessing", none, none⟩ "Failed to download image: timeout"
      (Except.error "connection refused")).1.stage = "failed" ∧
    getField (handlePipelineFailure "job-1" "U1" "M1" "2026-01-01T00:00:00+00:00" 3
      ⟨10, "preprocessing", none, none⟩ "Failed to download image: timeout"
      (Except.error "connection refused")).2.1 "stage" = some (Json.str "failed") ∧
    getField (handlePipelineFailure "job-1" "U1" "M1" "2026-01-01T00:00:00+00:00" 3
      ⟨10, "preprocessing", none, none⟩ "Failed to download image: timeout"
      (Except.error "connection refused")).2.1 "stage" ≠ some (Json.str "preprocessing") ∧
    getField (handlePipelineFailure "job-1" "U1" "M1" "2026-01-01T00:00:00+00:00" 3
      ⟨10, "preprocessing", none, none⟩ "Failed to download image: timeout"
      (Except.error "connection refused")).2.1 "error" =
        some (Json.str "Failed to download image: timeout") ∧
    (handlePipelineFailure "job-1" "U1" "M1" "2026-01-01T00:00:00+00:00" 3
      ⟨10, "preprocessing", none, none⟩ "Failed to download image: timeout"
      (Except.error "connection refused")).2.2 = "Failed to download image: timeout" := by
  refine ⟨rfl, rfl, ?_, rfl, rfl⟩
  intro hcontra
  have h1 : getField (handlePipelineFailure "job-1" "U1" "M1"
      "2026-01-01T00:00:00+00:00" 3 ⟨10, "preprocessing", none, none⟩
      "Failed to download image: timeout"
      (Except.error "connection refused")).2.1 "stage" = some (Json.str "failed") := rfl
  rw [h1] at hcontra
  have h2 : "failed" = "preprocessing" := by
    injection hcontra with hx
    injection hx
  exact absurd h2 (by decide)

theorem sendAttempts_first_fail_retries (req : WebhookRequest)
    (outcomes : ℕ → AttemptOutcome) (maxRetries a fuel : ℕ)
    (h0 : isSuccess (outcomes a) = false) (ha : a < maxRetries) (hf : 1 ≤ fuel) :
    2 ≤ (sendAttempts req outcomes maxRetries a (fuel + 1)).requests.length := by
  simp only [sendAttempts, h0, Bool.false_eq_true, if_false, ha, if_true, List.length_cons]
  have := sendAttempts_len_pos req outcomes maxRetries fuel (a + 1) hf
  omega

/-! ## C3: the webhook delivery policy -/

/-- C3 (amended).  `send_webhook` makes at most 4 attempts (1 initial +
3 retries) with inter-attempt sleeps of 2^k seconds (so delays 0, 1 s,
2 s, 4 s before attempts 1..4) and a 30 s client timeout on every
attempt; it always makes a first attempt and posts the same body every
time; and it retries after ANY caught per-attempt failure — transport
timeouts and HTTP 5xx as the spec says, but equally HTTP 4xx responses,
because the `HTTPStatusError` from `raise_for_status` is caught uniformly. -/
theorem C3_delivery_policy (webhook_secret webhook_url : String) (payload : Json)
    (outcomes : ℕ → AttemptOutcome) :
    (send_webhook webhook_secret webhook_url payload outcomes 3).requests.length ≤ 4 ∧
    1 ≤ (send_webhook webhook_secret webhook_url payload outcomes 3).requests.length ∧
    (send_webhook webhook_secret webhook_url payload outcomes 3).sleeps =
      (List.range
        ((send_webhook webhook_secret webhook_url payload outcomes 3).requests.length - 1)).map
        (fun k => 2 ^ k) ∧
    (∀ req ∈ (send_webhook webhook_secret webhook_url payload outcomes 3).requests,
      req.timeoutSecs = 30 ∧ req.url = webhook_url ∧
      req.body = httpx_json_body (prepare_webhook_payload payload)) ∧
    (isSuccess (outcomes 0) = false →
      2 ≤ (send_webhook webhook_secret webhook_url payload outcomes 3).requests.length) ∧
    (outcomes 0 = AttemptOutcome.timeout →
      2 ≤ (send_webhook webhook_secret webhook_url payload outcomes 3).requests.length) ∧
    (outcomes 0 = AttemptOutcome.httpError 503 →
      2 ≤ (send_webhook webhook_secret webhook_url payload outcomes 3).requests.length) ∧
    (outcomes 0 = AttemptOutcome.httpError 400 →
      2 ≤ (send_webhook webhook_secret webhook_url payload outcomes 3).requests.length) := by
  have hretry : isSuccess (outcomes 0) = false →
      2 ≤ (send_webhook webhook_secret webhook_url payload outcomes 3).requests.length := by
    intro h0
    unfold send_webhook
    exact sendAttempts_first_fail_retries _ outcomes 3 0 3 h0 (by omega) (by omega)
  refine ⟨?_, ?_, ?_, ?_, hretry, ?_, ?_, ?_⟩
  · exact sendAttempts_len_le _ outcomes 3 4 0
  · exact sendAttempts_len_pos _ outcomes 3 4 0 (by omega)
  · simp only [send_webhook]
    simpa using sendAttempts_sleeps_eq _ outcomes 3 4 0 (by omega)
  · intro req hreq
    have hr := sendAttempts_requests_all _ outcomes 3 4 0 req hreq
    rw [hr]
    exact ⟨rfl, rfl, rfl⟩
  · intro h0; exact hretry (by rw [h0]; rfl)
  · intro h0; exact hretry (by rw [h0]; rfl)
  · intro h0; exact hretry (by rw [h0]; rfl)

/-- Witness for C3 at a concrete secret, URL, payload and a trace whose
first attempt times out. -/
theorem C3_delivery_policy_witness :
    (send_webhook "s" "http://cb/w" (Json.obj []) (fun n =>
        if n = 0 then AttemptOutcome.timeout else AttemptOutcome.success) 3).requests.length ≤ 4 ∧
    ((fun n => if n = 0 then AttemptOutcome.timeout else AttemptOutcome.success) 0 =
        AttemptOutcome.timeout →
      2 ≤ (send_webhook "s" "http://cb/w" (Json.obj []) (fun n =>
        if n = 0 then AttemptOutcome.timeout else AttemptOutcome.success) 3).requests.length) :=
  ⟨(C3_delivery_policy "s" "http://cb/w" (Json.obj []) (fun n =>
      if n = 0 then AttemptOutcome.timeout else AttemptOutcome.success)).1,
   (C3_delivery_policy "s" "http://cb/w" (Json.obj []) (fun n =>
      if n = 0 then AttemptOutcome.timeout else AttemptOutcome.success)).2.2.2.2.2.1⟩

/-- The callback answers HTTP 400, then 2xx. -/
def c3Outcomes : ℕ → AttemptOutcome :=
  fun n => if n = 0 then AttemptOutcome.httpError 400 else AttemptOutcome.success

/-- C3 counterexample.  After an HTTP 400 response — which the claim
calls non-retryable — the dispatcher retries: it makes a second attempt
(and returns success from it). -/
theorem C3_counterexample :
    c3Outcomes 0 = AttemptOutcome.httpError 400 ∧
    (send_webhook "" "http://cb/w" (Json.obj []) c3Outcomes 3).requests.length = 2 ∧
    (send_webhook "" "http://cb/w" (Json.obj []) c3Outcomes 3).success = true := by
  refine ⟨rfl, rfl, rfl⟩

/-! ## C2: the webhook signature and the transmitted bytes -/

/-- C2 (amended).  With a configured secret, every attempt of a delivery
carries `X-Webhook-Signature: "sha256=" + hex(HMAC_SHA256(secret,
canonical_bytes))`, where `canonical_bytes` is the canonical JSON
serialization (keys sorted, compact separators) of the prepared payload
— not the transmitted body: the body httpx sends is serialized
separately in dict insertion order.  The transmitted body bytes are the
same on every retry attempt. -/
theorem C2_signature_over_canonical_bytes (webhook_secret webhook_url : String)
    (payload : Json) (outcomes : ℕ → AttemptOutcome) (h : webhook_secret ≠ "") :
    (∀ req ∈ (send_webhook webhook_secret webhook_url payload outcomes 3).requests,
      req.headers = [("Content-Type", "application/json"),
        ("User-Agent", "OCR-Service/1.0"),
        ("X-Webhook-Signature", "sha256=" ++ hexDigest (hmacSha256
          (utf8Bytes webhook_secret)
          (utf8Bytes (canonical_json_dumps (prepare_webhook_payload payload)))))] ∧
      req.body = httpx_json_body (prepare_webhook_payload payload)) ∧
    (∀ req1 ∈ (send_webhook webhook_secret webhook_url payload outcomes 3).requests,
     ∀ req2 ∈ (send_webhook webhook_secret webhook_url payload outcomes 3).requests,
      req1.body = req2.body) := by
  constructor
  · intro req hreq
    have hr := sendAttempts_requests_all _ outcomes 3 4 0 req hreq
    rw [hr]
    refine ⟨?_, rfl⟩
    show [("Content-Type", "application/json"), ("User-Agent", "OCR-Service/1.0")] ++
      (match
        (match generate_webhook_signature webhook_secret
            (prepare_webhook_payload payload) with
         | Except.ok s => some s
         | Except.error _ => none) with
       | some s => [("X-Webhook-Signature", s)]
       | none => []) = _
    rw [generate_webhook_signature, if_neg h]
    rfl
  · intro req1 h1 req2 h2
    have e1 := sendAttempts_requests_all _ outcomes 3 4 0 req1 h1
    have e2 := sendAttempts_requests_all _ outcomes 3 4 0 req2 h2
    rw [e1, e2]

/-- Witness for C2 at a concrete secret, payload and trace. -/
theorem C2_signature_over_canonical_bytes_witness :
    (∀ req ∈ (send_webhook "topsecret" "http://cb/w"
        (Json.obj [("event", Json.str "job.completed")])
        (fun _ => AttemptOutcome.success) 3).requests,
      req.headers = [("Content-Type", "application/json"),
        ("User-Agent", "OCR-Service/1.0"),
        ("X-Webhook-Signature", "sha256=" ++ hexDigest (hmacSha256
          (utf8Bytes "topsecret")
          (utf8Bytes (canonical_json_dumps (prepare_webhook_payload
            (Json.obj [("event", Json.str "job.completed")]))))))] ∧
      req.body = httpx_json_body (prepare_webhook_payload
        (Json.obj [("event", Json.str "job.completed")]))) ∧
    (∀ req1 ∈ (send_webhook "topsecret" "http://cb/w"
        (Json.obj [("event", Json.str "job.completed")])
        (fun _ => AttemptOutcome.success) 3).requests,
     ∀ req2 ∈ (send_webhook "topsecret" "http://cb/w"
        (Json.obj [("event", Json.str "job.completed")])
        (fun _ => AttemptOutcome.success) 3).requests,
      req1.body = req2.body) :=
  C2_signature_over_canonical_bytes "topsecret" "http://cb/w"
    (Json.obj [("event", Json.str "job.completed")])
    (fun _ => AttemptOutcome.success) (by decide)

/-- A `job.failed` payload with the key insertion order of the worker. -/
def c2Payload : Json :=
  errorPayloadJson "job-1" "U1" "M1" "2026-01-01T00:00:00+00:00" 3 "boom" "failed"

/-- C2 counterexample.  For the error-payload key order of the worker itself the
transmitted body bytes are NOT the canonical (sorted-keys) JSON the
signature is computed over: the delivered request body differs from the
canonical serialization, so the header is not an HMAC of the exact
transmitted bytes. -/
theorem C2_counterexample :
    ((send_webhook "topsecret" "http://cb/w" c2Payload
        (fun _ => AttemptOutcome.success) 3).requests.map (fun req => req.body)) =
      [httpx_json_body (prepare_webhook_payload c2Payload)] ∧
    httpx_json_body (prepare_webhook_payload c2Payload) ≠
      canonical_json_dumps (prepare_webhook_payload c2Payload) := by
  refine ⟨rfl, by decide⟩

/-! ## C6: the length-weighted overall confidence -/

theorem overall_fold_eq (rs : List TextRegion) (a b : ℚ) :
    rs.foldl
      (fun (tc_tw : ℚ × ℚ) result =>
        let weight := regionWeight result
        (tc_tw.1 + result.confidence * weight, tc_tw.2 + weight))
      (a, b) =
    (a + (rs.map (fun r => r.confidence * regionWeight r)).sum,
     b + (rs.map regionWeight).sum) := by
  induction rs generalizing a b with
  | nil => simp
  | cons r rest ih =>
    simp only [List.foldl_cons, List.map_cons, List.sum_cons]
    rw [ih]
    simp [add_assoc]

theorem weights_sum_pos (rs : List TextRegion) (h : rs ≠ []) :
    0 < (rs.map regionWeight).sum := by
  cases rs with
  | nil => exact absurd rfl h
  | cons r rest =>
    have h1 : (1 : ℚ) ≤ regionWeight r := le_max_left _ _
    have h2 : 0 ≤ (rest.map regionWeight).sum := by
      refine List.sum_nonneg ?_
      intro x hx
      obtain ⟨r2, _, rfl⟩ := List.mem_map.mp hx
      exact le_trans zero_le_one (le_max_left _ _)
    simp only [List.map_cons, List.sum_cons]
    linarith

theorem overall_confidence_formula (rs : List TextRegion) (h : rs ≠ []) :
    calculate_overall_confidence rs =
      (rs.map (fun r => r.confidence * regionWeight r)).sum /
        (rs.map regionWeight).sum := by
  cases rs with
  | nil => exact absurd rfl h
  | cons r rest =>
    show (let acc := (r :: rest).foldl
            (fun (tc_tw : ℚ × ℚ) result =>
              let weight := regionWeight result
              (tc_tw.1 + result.confidence * weight, tc_tw.2 + weight))
            (0, 0)
          if 0 < acc.2 then acc.1 / acc.2 else 0) = _
    rw [overall_fold_eq]
    have hpos : 0 < ((r :: rest).map regionWeight).sum :=
      weights_sum_pos (r :: rest) (by simp)
    simp only [zero_add]
    rw [if_pos hpos]

/-- C6 (amended).  For a nonempty region list the overall confidence is
the length-weighted mean `Σ(c_i * w_i) / Σ w_i` with
`w_i = max(1, len(text_i)/10)`; and the `confidence_score` persisted in
the result record is recomputable from the persisted
`raw_text_regions` list exactly when at most 20 regions were extracted
(the worker truncates the persisted list to 20 while scoring all of
them). -/
theorem C6_overall_confidence (rs : List TextRegion) (li : List RawLineItem)
    (h : rs ≠ []) :
    calculate_overall_confidence rs =
      (rs.map (fun r => r.confidence * regionWeight r)).sum /
        (rs.map regionWeight).sum ∧
    (rs.length ≤ 20 →
      (buildResultData rs li).confidence_score =
        calculate_overall_confidence (buildResultData rs li).raw_text_regions) := by
  constructor
  · exact overall_confidence_formula rs h
  · intro hlen
    unfold buildResultData
    simp only
    rw [List.take_of_length_le hlen]

/-- Witness for C6 at a one-region list. -/
theorem C6_overall_confidence_witness :
    calculate_overall_confidence [⟨[(0, 0)], "ab", 1/2, "primary", false⟩] =
      (([⟨[(0, 0)], "ab", 1/2, "primary", false⟩] : List TextRegion).map
        (fun r => r.confidence * regionWeight r)).sum /
      (([⟨[(0, 0)], "ab", 1/2, "primary", false⟩] : List TextRegion).map
        regionWeight).sum ∧
    (([⟨[(0, 0)], "ab", 1/2, "primary", false⟩] : List TextRegion).length ≤ 20 →
      (buildResultData [⟨[(0, 0)], "ab", 1/2, "primary", false⟩] []).confidence_score =
        calculate_overall_confidence
          (buildResultData [⟨[(0, 0)], "ab", 1/2, "primary", false⟩] []).raw_text_regions) :=
  C6_overall_confidence [⟨[(0, 0)], "ab", 1/2, "primary", false⟩] [] (by simp)

/-- One high-confidence region. -/
def c6RegionHigh : TextRegion := ⟨[(0, 0), (10, 0), (10, 10), (0, 10)], "a", 1, "primary", false⟩

/-- One zero-confidence region. -/
def c6RegionZero : TextRegion := ⟨[(0, 0), (10, 0), (10, 10), (0, 10)], "a", 0, "primary", false⟩

/-- Twenty-one regions: the 21st is dropped from the persisted list. -/
def c6Regions : List TextRegion := List.replicate 20 c6RegionHigh ++ [c6RegionZero]

/-- C6 counterexample.  With 21 extracted regions the persisted
`confidence_score` (20/21, scored over all 21) is NOT recomputable from
the persisted `raw_text_regions` (the first 20, which recompute to
1). -/
theorem regionWeight_a_high : regionWeight c6RegionHigh = 1 := by
  unfold regionWeight c6RegionHigh
  simp only [show ("a" : String).length = 1 from rfl]
  norm_num

theorem regionWeight_a_zero : regionWeight c6RegionZero = 1 := by
  unfold regionWeight c6RegionZero
  simp only [show ("a" : String).length = 1 from rfl]
  norm_num

theorem c6Regions_take : c6Regions.take 20 = List.replicate 20 c6RegionHigh := by
  have h20 : (List.replicate 20 c6RegionHigh).length = 20 := by simp
  calc c6Regions.take 20
      = (List.replicate 20 c6RegionHigh ++ [c6RegionZero]).take
          (List.replicate 20 c6RegionHigh).length := by rw [h20]; rfl
    _ = List.replicate 20 c6RegionHigh := List.take_left _ _

theorem C6_counterexample :
    (buildResultData c6Regions []).confidence_score = 20/21 ∧
    calculate_overall_confidence (buildResultData c6Regions []).raw_text_regions = 1 ∧
    (buildResultData c6Regions []).confidence_score ≠
      calculate_overall_confidence (buildResultData c6Regions []).raw_text_regions := by
  have hraw : (buildResultData c6Regions []).raw_text_regions =
      List.replicate 20 c6RegionHigh := c6Regions_take
  have ha : (buildResultData c6Regions []).confidence_score = 20/21 := by
    show calculate_overall_confidence c6Regions = 20/21
    rw [overall_confidence_formula c6Regions (by simp [c6Regions])]
    simp only [c6Regions, List.map_append, List.map_replicate, List.sum_append,
      List.sum_replicate, List.map_cons, List.map_nil, List.sum_cons, List.sum_nil,
      regionWeight_a_high, regionWeight_a_zero]
    norm_num [c6RegionHigh, c6RegionZero]
  have hb : calculate_overall_confidence (buildResultData c6Regions []).raw_text_regions = 1 := by
    rw [hraw, overall_confidence_formula _ (by simp)]
    simp only [List.map_replicate, List.sum_replicate, regionWeight_a_high]
    norm_num [c6RegionHigh]
  refine ⟨ha, hb, ?_⟩
  rw [ha, hb]
  norm_num

/-! ## C7: line-item amounts and list clamping -/

theorem lineItemsFold_pos (regions : List TextRegion) (acc : List RawLineItem)
    (hacc : ∀ x ∈ acc, 0 < x.amount.value) :
    ∀ x ∈ regions.foldl
      (fun line_items region =>
        let amount_matches := scanAmounts region.text.toList
        if amount_matches ≠ [] ∧ (3/5 : ℚ) < region.confidence then
          let description := String.mk (pyStrip (subAmounts region.text.toList))
          line_items ++ amount_matches.filterMap (fun amount_str =>
            match parseAmount amount_str with
            | none => none
            | some amount =>
              if 0 < amount ∧ description ≠ "" then
                some ⟨⟨description, region.confidence⟩, ⟨amount, region.confidence⟩⟩
              else none)
        else line_items)
      acc, 0 < x.amount.value := by
  induction regions generalizing acc with
  | nil => simpa using hacc
  | cons r rest ih =>
    intro x hx
    rw [List.foldl_cons] at hx
    refine ih _ ?_ x hx
    intro y hy
    simp only at hy
    by_cases hcond : scanAmounts r.text.toList ≠ [] ∧ (3/5 : ℚ) < r.confidence
    · rw [if_pos hcond] at hy
      rcases List.mem_append.mp hy with h1 | h2
      · exact hacc y h1
      · obtain ⟨a, _, hg⟩ := List.mem_filterMap.mp h2
        rcases hpa : parseAmount a with - | amt
        · rw [hpa] at hg
          exact absurd hg (by simp)
        · rw [hpa] at hg
          simp only at hg
          by_cases hif : 0 < amt ∧ String.mk (pyStrip (subAmounts r.text.toList)) ≠ ""
          · rw [if_pos hif] at hg
            obtain rfl := (Option.some.injEq _ _).mp hg
            exact hif.1
          · rw [if_neg hif] at hg
            exact absurd hg (by simp)
    · rw [if_neg hcond] at hy
      exact hacc y hy

/-- C7 (amended).  Every line item `_extract_line_items` emits has a
strictly positive amount — the function checks `amount > 0` but imposes
NO upper bound (the `<= 10^6` filter exists only in
`_extract_total_amount`) — and the emitted list is clamped to at most 10
entries. -/
theorem C7_line_items (text_regions : List TextRegion) :
    (extract_line_items text_regions).length ≤ 10 ∧
    ∀ item ∈ extract_line_items text_regions, 0 < item.amount.value := by
  constructor
  · exact List.length_take_le 10 _
  · intro item hmem
    unfold extract_line_items at hmem
    exact lineItemsFold_pos text_regions [] (by simp) item (List.take_subset 10 _ hmem)

theorem scanAmounts_x5 : scanAmounts ['x', ' ', '5'] = [['5']] := by
  simp [scanAmounts, munchAmount, amountTail, isDigitOrComma, isPySpace,
    List.takeWhile, List.dropWhile, List.isPrefixOf]

theorem subAmounts_x5 : subAmounts ['x', ' ', '5'] = ['x', ' '] := by
  simp [subAmounts, munchAmount, amountTail, isDigitOrComma, isPySpace,
    List.takeWhile, List.dropWhile, List.isPrefixOf]

theorem parseAmount_5 : parseAmount ['5'] = some 5 := by
  simp [parseAmount, digitsVal, List.takeWhile, List.dropWhile]

theorem extract_line_items_x5 :
    extract_line_items [⟨[(0, 0)], "x 5", 7/10, "primary", false⟩] =
      [⟨⟨"x", 7/10⟩, ⟨5, 7/10⟩⟩] := by
  have htl : ("x 5" : String).toList = ['x', ' ', '5'] := rfl
  have hdesc : String.mk (pyStrip ['x', ' ']) = "x" := by decide
  simp only [extract_line_items, List.foldl_cons, List.foldl_nil, htl,
    scanAmounts_x5, subAmounts_x5, hdesc]
  norm_num [List.filterMap_cons, parseAmount_5, show ¬("x" : String) = "" from by decide]

/-- Witness for C7 at a concrete region embedding the amount 5. -/
theorem C7_line_items_witness :
    (extract_line_items [⟨[(0, 0)], "x 5", 7/10, "primary", false⟩]).length ≤ 10 ∧
    0 < (⟨⟨"x", 7/10⟩, ⟨5, 7/10⟩⟩ : RawLineItem).amount.value :=
  ⟨(C7_line_items [⟨[(0, 0)], "x 5", 7/10, "primary", false⟩]).1,
   (C7_line_items [⟨[(0, 0)], "x 5", 7/10, "primary", false⟩]).2
     ⟨⟨"x", 7/10⟩, ⟨5, 7/10⟩⟩
     (by rw [extract_line_items_x5]; exact List.mem_singleton_self _)⟩

theorem scanAmounts_item2M :
    scanAmounts ['i', 't', 'e', 'm', ' ', '2', '0', '0', '0', '0', '0', '0'] =
      [['2', '0', '0', '0', '0', '0', '0']] := by
  simp [scanAmounts, munchAmount, amountTail, isDigitOrComma, isPySpace,
    List.takeWhile, List.dropWhile, List.isPrefixOf]

theorem subAmounts_item2M :
    subAmounts ['i', 't', 'e', 'm', ' ', '2', '0', '0', '0', '0', '0', '0'] =
      ['i', 't', 'e', 'm', ' '] := by
  simp [subAmounts, munchAmount, amountTail, isDigitOrComma, isPySpace,
    List.takeWhile, List.dropWhile, List.isPrefixOf]

theorem parseAmount_2M :
    parseAmount ['2', '0', '0', '0', '0', '0', '0'] = some 2000000 := by
  simp [parseAmount, digitsVal, List.takeWhile, List.dropWhile]

/-- C7 counterexample.  A region reading `item 2000000` with confidence
0.7 yields a line item whose amount is 2000000 > 10^6: the claimed upper
bound `a ≤ 10^6` does not hold for emitted line items. -/
theorem C7_counterexample :
    extract_line_items [⟨[(0, 0)], "item 2000000", 7/10, "primary", false⟩] =
      [⟨⟨"item", 7/10⟩, ⟨2000000, 7/10⟩⟩] ∧
    (10 : ℚ) ^ 6 < 2000000 := by
  constructor
  · have htl : ("item 2000000" : String).toList =
        ['i', 't', 'e', 'm', ' ', '2', '0', '0', '0', '0', '0', '0'] := rfl
    have hdesc : String.mk (pyStrip ['i', 't', 'e', 'm', ' ']) = "item" := by decide
    simp only [extract_line_items, List.foldl_cons, List.foldl_nil, htl,
      scanAmounts_item2M, subAmounts_item2M, hdesc]
    norm_num [List.filterMap_cons, parseAmount_2M,
      show ¬("item" : String) = "" from by decide]
  · norm_num

/-! ## C5 / C8: the dual-pass merge -/

theorem calculate_bbox_iou_self (b : List (Int × Int)) (h : posAreaBox b = true) :
    calculate_bbox_iou b b = 1 := by
  unfold posAreaBox at h
  unfold calculate_bbox_iou
  rcases hbr : bbox_to_rect b with ⟨x0, y0, x1, y1⟩
  rw [hbr] at h
  simp only [decide_eq_true_eq] at h
  obtain ⟨hx, hy⟩ := h
  simp only [hbr, max_self, min_self]
  rw [if_neg (by push_neg; constructor <;> [exact le_of_lt hx; exact le_of_lt hy])]
  have harea : (0 : Int) < (x1 - x0) * (y1 - y0) :=
    mul_pos (by omega) (by omega)
  rw [if_neg (by intro hz; rw [show (x1 - x0) * (y1 - y0) + (x1 - x0) * (y1 - y0) -
        (x1 - x0) * (y1 - y0) = (x1 - x0) * (y1 - y0) from by ring] at hz; omega)]
  rw [show (x1 - x0) * (y1 - y0) + (x1 - x0) * (y1 - y0) -
        (x1 - x0) * (y1 - y0) = (x1 - x0) * (y1 - y0) from by ring]
  exact div_self (by exact_mod_cast ne_of_gt harea)

theorem findMatchAux_skip (p : TextRegion) (l1 l2 : List TextRegion) (t : ℚ) :
    ∀ (idx : ℕ) (used : List ℕ), (∀ j, j < l1.length → idx + j ∈ used) →
      findMatchAux p (l1 ++ l2) idx used t = findMatchAux p l2 (idx + l1.length) used t := by
  induction l1 with
  | nil => intro idx used _; simp
  | cons s l1 ih =>
    intro idx used h
    have h0 : idx ∈ used := by simpa using h 0 (by simp)
    simp only [List.cons_append, findMatchAux, h0, if_true]
    have hih := ih (idx + 1) used (fun j hj => by
      have := h (j + 1) (by simpa using Nat.succ_lt_succ hj)
      simpa [Nat.add_assoc, Nat.add_comm 1 j] using this)
    have harith : idx + 1 + l1.length = idx + (s :: l1).length := by
      simp only [List.length_cons]
      omega
    rw [harith] at hih
    simpa [List.append_eq] using hih

theorem unmatchedAux_all_used :
    ∀ (ss : List TextRegion) (idx : ℕ) (used : List ℕ),
      (∀ i, idx ≤ i → i < idx + ss.length → i ∈ used) →
      unmatchedAux ss idx used = [] := by
  intro ss
  induction ss with
  | nil => intro idx used _; simp [unmatchedAux]
  | cons s ss ih =>
    intro idx used h
    have h0 : idx ∈ used := h idx (le_refl idx) (by simp)
    simp only [unmatchedAux, h0, if_true]
    exact ih (idx + 1) used (fun i h1 h2 => h i (by omega) (by simp at h2 ⊢; omega))

theorem mergeLoop_self (L : List TextRegion)
    (h : ∀ r ∈ L, is_thai_heavy_text r.text = false ∧ posAreaBox r.bounding_box = true ∧
         r.dual_pass_improved = false ∧ 0 ≤ r.confidence) :
    ∀ (ds : List TextRegion) (k : ℕ), L.drop k = ds → k ≤ L.length →
      mergeLoop L (1/2) ds (List.range k) = (List.range L.length, ds) := by
  intro ds
  induction ds with
  | nil =>
    intro k hdrop hk
    have hlen : L.length ≤ k := by
      have := congrArg List.length hdrop
      simp [List.length_drop] at this
      omega
    have hkL : k = L.length := le_antisymm hk hlen
    simp [mergeLoop, hkL]
  | cons p ds ih =>
    intro k hdrop hk
    have hklt : k < L.length := by
      have := congrArg List.length hdrop
      simp [List.length_drop] at this
      omega
    have hpL : p ∈ L := List.drop_subset k L (hdrop ▸ List.mem_cons_self p ds)
    obtain ⟨hthai, hpos, hflag, hconf⟩ := h p hpL
    have hfind : findMatchAux p L 0 (List.range k) (1/2) = some (k, p) := by
      have hsplit : L = L.take k ++ L.drop k := (List.take_append_drop k L).symm
      have htk : (L.take k).length = k := by
        rw [List.length_take]
        omega
      calc findMatchAux p L 0 (List.range k) (1/2)
          = findMatchAux p (L.take k ++ L.drop k) 0 (List.range k) (1/2) := by
            rw [← hsplit]
        _ = findMatchAux p (L.drop k) (0 + (L.take k).length) (List.range k) (1/2) := by
            refine findMatchAux_skip p (L.take k) (L.drop k) (1/2) 0 (List.range k) ?_
            intro j hj
            rw [htk] at hj
            simpa using hj
        _ = some (k, p) := by
            rw [htk, hdrop]
            have hknot : k ∉ List.range k := by simp
            simp only [findMatchAux, Nat.zero_add, hknot, if_false]
            rw [calculate_bbox_iou_self p.bounding_box hpos]
            rw [if_pos (by norm_num)]
    have hkeep : p.confidence * (4/5) ≤ p.confidence := by nlinarith
    have hdrop1 : L.drop (k + 1) = ds := by
      have h1 : L.drop (k + 1) = (L.drop k).drop 1 := by
        rw [List.drop_drop, Nat.add_comm]
      rw [h1, hdrop]
      rfl
    have hrec := ih (k + 1) hdrop1 (by omega)
    simp only [mergeLoop, hfind, hthai, Bool.false_eq_true, if_false, hkeep, if_true]
    rw [show List.range k ++ [k] = List.range (k + 1) from (List.range_succ k).symm]
    rw [hrec]
    simp only [if_pos rfl]
    rw [setFlagFalse p hflag]

/-- C8 (amended).  Merging a list of regions with itself is the identity
when no region is Thai-dominant, every bounding box has positive area
and confidences are nonnegative: each primary finds its own copy (IoU 1)
and replaces itself with it, consuming the matching secondary.  (For
Thai-dominant regions the kept primary does NOT consume the matched
secondary, which is appended again — see the counterexample.) -/
theorem C8_selfmerge_identity (L : List TextRegion)
    (h : ∀ r ∈ L, is_thai_heavy_text r.text = false ∧ posAreaBox r.bounding_box = true ∧
         r.dual_pass_improved = false ∧ 0 ≤ r.confidence) :
    merge_dual_pass_results L L (1/2) = L := by
  unfold merge_dual_pass_results
  have hloop := mergeLoop_self L h L 0 (by simp) (by omega)
  simp only [List.range_zero] at hloop
  rw [hloop]
  simp only
  rw [unmatchedAux_all_used L 0 (List.range L.length) (fun i _ h2 => by
    simp at h2 ⊢
    omega)]
  simp

theorem thai_check_hello : is_thai_heavy_text "hello" = false := by
  have h1 : List.filter (fun c => !isPySpace c) ("hello".toList) =
      ['h', 'e', 'l', 'l', 'o'] := by decide
  have h2 : List.filter isThaiChar ("hello".toList) = [] := by decide
  simp only [is_thai_heavy_text, get_script_confidence, h1, h2, List.length_cons,
    List.length_nil]
  norm_num

/-- Witness for C8 at a one-region English list. -/
theorem C8_selfmerge_identity_witness :
    merge_dual_pass_results
      [⟨[(0, 0), (10, 0), (10, 10), (0, 10)], "hello", 9/10, "primary", false⟩]
      [⟨[(0, 0), (10, 0), (10, 10), (0, 10)], "hello", 9/10, "primary", false⟩] (1/2) =
      [⟨[(0, 0), (10, 0), (10, 10), (0, 10)], "hello", 9/10, "primary", false⟩] := by
  refine C8_selfmerge_identity _ ?_
  intro r hr
  rw [List.mem_singleton] at hr
  subst hr
  refine ⟨thai_check_hello, by decide, rfl, by norm_num⟩

/-- A Thai-dominant region (`รวม`, "total"). -/
def c8ThaiRegion : TextRegion :=
  ⟨[(0, 0), (10, 0), (10, 10), (0, 10)], "รวม", 9/10, "primary", false⟩

theorem thai_check_ruam : is_thai_heavy_text "รวม" = true := by
  have h1 : List.filter (fun c => !isPySpace c) ("รวม".toList) = "รวม".toList := by decide
  have h2 : List.filter isThaiChar ("รวม".toList) = "รวม".toList := by decide
  have h3 : ("รวม".toList).length = 3 := by decide
  simp only [is_thai_heavy_text, get_script_confidence, h1, h2, h3]
  norm_num

/-- C8 counterexample.  Merging a Thai-dominant region with itself
duplicates it: the primary is kept (equal confidences), the matching
secondary is never marked used and is appended again, so the output is
`[R, R]`, not the input `[R]`. -/
theorem C8_counterexample :
    merge_dual_pass_results [c8ThaiRegion] [c8ThaiRegion] (1/2) =
      [c8ThaiRegion, c8ThaiRegion] ∧
    merge_dual_pass_results [c8ThaiRegion] [c8ThaiRegion] (1/2) ≠ [c8ThaiRegion] := by
  have hiou : calculate_bbox_iou c8ThaiRegion.bounding_box c8ThaiRegion.bounding_box = 1 :=
    calculate_bbox_iou_self _ (by decide)
  have hfind : findMatchAux c8ThaiRegion [c8ThaiRegion] 0 [] (1/2) =
      some (0, c8ThaiRegion) := by
    simp only [findMatchAux, List.not_mem_nil, if_false, hiou]
    norm_num
  have hkeep : c8ThaiRegion.confidence * (4/5) ≤ c8ThaiRegion.confidence := by
    show (9/10 : ℚ) * (4/5) ≤ 9/10
    norm_num
  have htext : c8ThaiRegion.text = "รวม" := rfl
  have h1 : merge_dual_pass_results [c8ThaiRegion] [c8ThaiRegion] (1/2) =
      [c8ThaiRegion, c8ThaiRegion] := by
    unfold merge_dual_pass_results
    simp only [mergeLoop, hfind, htext, thai_check_ruam, hkeep, if_true, unmatchedAux,
      List.not_mem_nil, if_false]
    rfl
  refine ⟨h1, ?_⟩
  rw [h1]
  intro hcontra
  have := congrArg List.length hcontra
  simp at this

/-- C5 (amended).  The single-pair characterization of the merge rules,
with the thresholds exactly as coded: below IoU 0.5 nothing matches and
the secondary is appended unmatched; at IoU >= 0.5 a Thai-dominant
primary is kept iff `secondary.confidence * 0.8 <= primary.confidence`
(and the matched-but-losing secondary is appended AGAIN, not consumed),
otherwise replaced; a non-Thai primary is replaced iff
`primary.confidence * 0.8 <= secondary.confidence`; a replacement
carries `dual_pass_improved = true` exactly when the chosen region
differs from the primary; and among several overlapping secondaries the
FIRST in list order with IoU >= 0.5 is selected, not the one of highest
IoU. -/
theorem C5_merge_rules (p s : TextRegion) (hp : p.dual_pass_improved = false)
    (hs : s.dual_pass_improved = false) :
    (calculate_bbox_iou p.bounding_box s.bounding_box < 1/2 →
      merge_dual_pass_results [p] [s] (1/2) = [p, s]) ∧
    (1/2 ≤ calculate_bbox_iou p.bounding_box s.bounding_box →
      is_thai_heavy_text p.text = true →
      s.confidence * (4/5) ≤ p.confidence →
      merge_dual_pass_results [p] [s] (1/2) = [p, s]) ∧
    (1/2 ≤ calculate_bbox_iou p.bounding_box s.bounding_box →
      is_thai_heavy_text p.text = true →
      p.confidence < s.confidence * (4/5) → s ≠ p →
      merge_dual_pass_results [p] [s] (1/2) = [{ s with dual_pass_improved := true }]) ∧
    (1/2 ≤ calculate_bbox_iou p.bounding_box s.bounding_box →
      is_thai_heavy_text p.text = false →
      p.confidence * (4/5) ≤ s.confidence → s ≠ p →
      merge_dual_pass_results [p] [s] (1/2) = [{ s with dual_pass_improved := true }]) ∧
    (1/2 ≤ calculate_bbox_iou p.bounding_box s.bounding_box →
      is_thai_heavy_text p.text = false →
      s.confidence < p.confidence * (4/5) →
      merge_dual_pass_results [p] [s] (1/2) = [p, s]) ∧
    (∀ s2 : TextRegion, 1/2 ≤ calculate_bbox_iou p.bounding_box s.bounding_box →
      findMatchAux p [s, s2] 0 [] (1/2) = some (0, s)) := by
  refine ⟨?_, ?_, ?_, ?_, ?_, ?_⟩
  · intro hiou
    have hfind : findMatchAux p [s] 0 [] (1/2) = none := by
      simp only [findMatchAux, List.not_mem_nil, if_false]
      rw [if_neg (not_le.mpr hiou)]
    unfold merge_dual_pass_results
    simp only [mergeLoop, hfind, unmatchedAux, List.not_mem_nil, if_false, if_true]
    rw [setFlagFalse p hp, setFlagFalse s hs]
    rfl
  · intro hiou hthai hconf
    have hfind : findMatchAux p [s] 0 [] (1/2) = some (0, s) := by
      simp only [findMatchAux, List.not_mem_nil, if_false]
      rw [if_pos hiou]
    unfold merge_dual_pass_results
    simp only [mergeLoop, hfind, hthai, if_true, hconf, unmatchedAux,
      List.not_mem_nil, if_false]
    rw [setFlagFalse p hp, setFlagFalse s hs]
    rfl
  · intro hiou hthai hconf hne
    have hfind : findMatchAux p [s] 0 [] (1/2) = some (0, s) := by
      simp only [findMatchAux, List.not_mem_nil, if_false]
      rw [if_pos hiou]
    unfold merge_dual_pass_results
    simp only [mergeLoop, hfind, hthai, if_true, unmatchedAux]
    rw [if_neg (not_le.mpr hconf), if_neg hne]
    simp [unmatchedAux]
  · intro hiou hthai hconf hne
    have hfind : findMatchAux p [s] 0 [] (1/2) = some (0, s) := by
      simp only [findMatchAux, List.not_mem_nil, if_false]
      rw [if_pos hiou]
    unfold merge_dual_pass_results
    simp only [mergeLoop, hfind, hthai, Bool.false_eq_true, if_false, hconf, if_true]
    rw [if_neg hne]
    simp [unmatchedAux]
  · intro hiou hthai hconf
    have hfind : findMatchAux p [s] 0 [] (1/2) = some (0, s) := by
      simp only [findMatchAux, List.not_mem_nil, if_false]
      rw [if_pos hiou]
    unfold merge_dual_pass_results
    simp only [mergeLoop, hfind, hthai, Bool.false_eq_true, if_false]
    rw [if_neg (not_le.mpr hconf)]
    simp only [if_true, unmatchedAux, List.not_mem_nil, if_false]
    rw [setFlagFalse p hp, setFlagFalse s hs]
    rfl
  · intro s2 hiou
    simp only [findMatchAux, List.not_mem_nil, if_false]
    rw [if_pos hiou]

theorem thai_check_abc : is_thai_heavy_text "abc" = false := by
  have h1 : List.filter (fun c => !isPySpace c) ("abc".toList) = ['a', 'b', 'c'] := by decide
  have h2 : List.filter isThaiChar ("abc".toList) = [] := by decide
  simp only [is_thai_heavy_text, get_script_confidence, h1, h2, List.length_cons,
    List.length_nil]
  norm_num

/-- Witness for C5 (the non-Thai keep-primary case) at concrete
regions. -/
theorem C5_merge_rules_witness :
    (1/2 : ℚ) ≤ calculate_bbox_iou
      ([(0, 0), (10, 0), (10, 10), (0, 10)] : List (Int × Int))
      ([(0, 0), (10, 0), (10, 10), (0, 10)] : List (Int × Int)) ∧
    merge_dual_pass_results
      [⟨[(0, 0), (10, 0), (10, 10), (0, 10)], "abc", 9/10, "primary", false⟩]
      [⟨[(0, 0), (10, 0), (10, 10), (0, 10)], "xyz", 1/10, "secondary", false⟩] (1/2) =
      [⟨[(0, 0), (10, 0), (10, 10), (0, 10)], "abc", 9/10, "primary", false⟩,
       ⟨[(0, 0), (10, 0), (10, 10), (0, 10)], "xyz", 1/10, "secondary", false⟩] := by
  have hiou : calculate_bbox_iou
      ([(0, 0), (10, 0), (10, 10), (0, 10)] : List (Int × Int))
      ([(0, 0), (10, 0), (10, 10), (0, 10)] : List (Int × Int)) = 1 :=
    calculate_bbox_iou_self _ (by decide)
  refine ⟨by rw [hiou]; norm_num, ?_⟩
  refine (C5_merge_rules
    ⟨[(0, 0), (10, 0), (10, 10), (0, 10)], "abc", 9/10, "primary", false⟩
    ⟨[(0, 0), (10, 0), (10, 10), (0, 10)], "xyz", 1/10, "secondary", false⟩
    rfl rfl).2.2.2.2.1 (by rw [hiou]; norm_num) thai_check_abc (by norm_num)

/-- The primary region of the C5 counterexample. -/
def c5P : TextRegion :=
  ⟨[(0, 0), (10, 0), (10, 10), (0, 10)], "abc", 1/2, "primary", false⟩

/-- First secondary: IoU with the primary exactly 0.5. -/
def c5S1 : TextRegion :=
  ⟨[(0, 0), (10, 0), (10, 20), (0, 20)], "SONE", 9/10, "secondary", false⟩

/-- Second secondary: IoU with the primary 10/11, higher than c5S1. -/
def c5S2 : TextRegion :=
  ⟨[(0, 0), (10, 0), (10, 11), (0, 11)], "STWO", 9/10, "secondary", false⟩

theorem c5_iou_PS1 : calculate_bbox_iou c5P.bounding_box c5S1.bounding_box = 1/2 := by
  norm_num [calculate_bbox_iou, bbox_to_rect, listMin, listMax, c5P, c5S1]

theorem c5_iou_PS2 : calculate_bbox_iou c5P.bounding_box c5S2.bounding_box = 10/11 := by
  norm_num [calculate_bbox_iou, bbox_to_rect, listMin, listMax, c5P, c5S2]

/-- C5 counterexample.  Both secondaries overlap the primary at
IoU >= 0.5 and the c5S2 IoU (10/11) is strictly higher than the c5S1 IoU (1/2),
yet the merge selects and substitutes c5S1 — the first in list order —
refuting "the overlapping secondary region with highest IoU is
selected". -/
theorem C5_counterexample :
    calculate_bbox_iou c5P.bounding_box c5S1.bounding_box = 1/2 ∧
    calculate_bbox_iou c5P.bounding_box c5S2.bounding_box = 10/11 ∧
    ((1/2 : ℚ) < 10/11) ∧
    merge_dual_pass_results [c5P] [c5S1, c5S2] (1/2) =
      [{ c5S1 with dual_pass_improved := true },
       { c5S2 with dual_pass_improved := false }] := by
  refine ⟨c5_iou_PS1, c5_iou_PS2, by norm_num, ?_⟩
  have hfind : findMatchAux c5P [c5S1, c5S2] 0 [] (1/2) = some (0, c5S1) := by
    simp only [findMatchAux, List.not_mem_nil, if_false, c5_iou_PS1]
    rw [if_pos (by norm_num)]
  have htext : c5P.text = "abc" := rfl
  have hconf : c5P.confidence * (4/5) ≤ c5S1.confidence := by
    show (1/2 : ℚ) * (4/5) ≤ 9/10
    norm_num
  have hne : c5S1 ≠ c5P := by
    intro hcontra
    have : c5S1.text = c5P.text := by rw [hcontra]
    exact absurd this (by decide)
  unfold merge_dual_pass_results
  simp only [mergeLoop, hfind, htext, thai_check_abc, Bool.false_eq_true, if_false,
    hconf, if_true]
  rw [if_neg hne]
  simp only [unmatchedAux, List.mem_singleton, List.mem_cons, List.not_mem_nil]
  norm_num

/-! ## C4: pipeline fatality and the fate of stage failures -/

/-- C4 (amended).  The preprocessing stage of the worker raises if and only
if the download fails or document classification returns a
non-document verdict; and `preprocess_image` itself never aborts AND
never records per-stage failures: every stage helper absorbs its own
exceptions (returning its input image), so `failed_operations` is
always empty and the abort-path `error` key is never set — a failed
stage is not skipped-and-recorded, it is reported as applied (see the
counterexample). -/
theorem C4_pipeline_totality {Img : Type} (download : Except String Img)
    (classifyResult : Except String (Bool × ℚ × DocMeta)) (o : CvOracle Img)
    (operations : List String) :
    ((∃ e, workerPreprocessingStage download classifyResult o operations =
        Except.error e) ↔
      ((∃ e, download = Except.error e) ∨
       (∃ c m, classifyResult = Except.ok (false, c, m)))) ∧
    (∀ image : Img, (preprocess_image o image operations).2.failed_operations = [] ∧
      (preprocess_image o image operations).2.error = none) := by
  constructor
  · cases download with
    | error e =>
      simp only [workerPreprocessingStage]
      constructor
      · intro _; exact Or.inl ⟨e, rfl⟩
      · intro _; exact ⟨"Failed to download image: " ++ e, rfl⟩
    | ok img =>
      cases classifyResult with
      | error e2 =>
        simp only [workerPreprocessingStage]
        constructor
        · intro ⟨e3, he3⟩
          simp at he3
        · rintro (⟨e3, he3⟩ | ⟨c, m, hcm⟩) <;> simp_all
      | ok r =>
        rcases r with ⟨b, c, m⟩
        cases b with
        | false =>
          simp only [workerPreprocessingStage]
          constructor
          · intro _; exact Or.inr ⟨c, m, rfl⟩
          · intro _; exact ⟨"Image does not contain a document", rfl⟩
        | true =>
          simp only [workerPreprocessingStage]
          constructor
          · intro ⟨e3, he3⟩
            simp at he3
          · rintro (⟨e3, he3⟩ | ⟨c2, m2, hcm⟩) <;> simp_all
  · intro image
    exact ⟨rfl, rfl⟩

/-- Witness for C4 at a concrete image, oracle and operation list. -/
theorem C4_pipeline_totality_witness :
    (preprocess_image okCvOracle 5 ["resize"]).2.failed_operations = [] ∧
    (preprocess_image okCvOracle 5 ["resize"]).2.error = none :=
  (C4_pipeline_totality (Except.ok 5)
    (Except.ok (true, 1, ⟨none, none, none, false⟩)) okCvOracle ["resize"]).2 5

/-- A cv oracle on which both the denoise primary (non-local means) and
its bilateral-filter fallback raise, everything else succeeding. -/
def c4FailOracle : CvOracle ℕ :=
  { resizeCv := fun i => Except.ok i
    denoiseCv := fun _ => Except.error "cv2 fastNlMeansDenoising failure"
    bilateralCv := fun _ => Except.error "cv2 bilateralFilter failure"
    enhanceCv := fun i => Except.ok i
    cropDetect := fun _ => CropDetect.noCorners
    perspectiveCv := fun i => Except.ok (some i)
    deskewCv := fun _ => DeskewOutcome.noLines
    sharpenCv := fun i => Except.ok i
    thresholdCv := fun i => Except.ok i }

/-- C4 counterexample.  With the denoise stage failing in both its
primary and its fallback, the image passes through unchanged — yet
`denoise` is recorded in `operations_applied` and `failed_operations`
stays empty: the failed stage is neither skipped nor recorded as a
`(stage, reason)` tuple in `operations_failed`. -/
theorem C4_counterexample :
    (preprocess_image c4FailOracle 7 ["denoise", "threshold"]).1 = 7 ∧
    (preprocess_image c4FailOracle 7 ["denoise", "threshold"]).2.operations_applied =
      ["denoise", "threshold"] ∧
    (preprocess_image c4FailOracle 7 ["denoise", "threshold"]).2.failed_operations = [] := by
  refine ⟨rfl, rfl, rfl⟩

end InvoiceOcr
